import Mathlib

/-
Verification of the eqbcs-py server (src/server.py) against its specification.

The development shallowly embeds the server: Python strings become Lean
strings manipulated through char-list helpers mirroring Python's str methods,
the per-connection `Client` dataclass and the server's client registry become
Lean structures, and each handler method (`_rx_line`, `_handle_command`,
`_handle_login_or_buffer`, `_routeTell`, `_handleBci`, `_broadcastMsgAll`,
`_kickSameName`, `_disconnect`, `_tick`) becomes a pure function from server
state to server state.  Socket sends are recorded in an ordered `out` list of
(destination connection id, line) pairs; log-only notices go to `log`;
disconnections are recorded with their reason in `disconnects`.
-/

namespace Eqbcs

/-- Characters Python's str.strip / str.split treat as whitespace (ASCII range). -/
def pySpace (c : Char) : Bool :=
  c = ' ' || c = '\t' || c = '\n' || c = '\r' || c = '\x0b' || c = '\x0c'

/-- Python s.strip() with no arguments (ASCII whitespace). -/
def pyStrip (s : String) : String :=
  String.mk (((s.toList.dropWhile pySpace).reverse.dropWhile pySpace).reverse)

/-- Python s.lstrip() with no arguments (ASCII whitespace). -/
def pyLStrip (s : String) : String :=
  String.mk (s.toList.dropWhile pySpace)

/-- Python s.startswith(p), computed on char lists so the kernel can evaluate it. -/
def strStartsWith (s p : String) : Bool :=
  p.toList.isPrefixOf s.toList

/-- Python s.lower() (ASCII case mapping). -/
def strLower (s : String) : String := String.mk (s.toList.map Char.toLower)

/-- Python s.upper() (ASCII case mapping). -/
def strUpper (s : String) : String := String.mk (s.toList.map Char.toUpper)

/-- Python s[n:] (drop the first n characters). -/
def strDropChars (s : String) (n : Nat) : String := String.mk (s.toList.drop n)

def splitOnceAux (sep : Char) : List Char → Option (List Char × List Char)
  | [] => none
  | c :: cs =>
    if c = sep then some ([], cs)
    else (splitOnceAux sep cs).map (fun p => (c :: p.1, p.2))

/-- Python s.split(sep, 1): the part before the first separator and, when the
separator occurs, the rest of the string. -/
def pySplitOnce (sep : Char) (s : String) : String × Option String :=
  match splitOnceAux sep s.toList with
  | none => (s, none)
  | some p => (String.mk p.1, some (String.mk p.2))

/-- Python s.split() with no arguments: split on whitespace runs, dropping empties. -/
def pySplitWs (s : String) : List String :=
  ((List.splitOnP pySpace s.toList).map String.mk).filter (fun t => !(t == ""))

def charListLt : List Char → List Char → Bool
  | [], [] => false
  | [], _ :: _ => true
  | _ :: _, [] => false
  | a :: as, b :: bs =>
    if a.toNat < b.toNat then true
    else if b.toNat < a.toNat then false
    else charListLt as bs

/-- Code-point lexicographic order on strings, as Python string comparison. -/
def strLt (a b : String) : Bool := charListLt a.toList b.toList

def sortInsert (x : String) : List String → List String
  | [] => [x]
  | y :: ys => if strLt y x then y :: sortInsert x ys else x :: y :: ys

/-- Ascending code-point sort, as Python's sorted() on a list of strings. -/
def pySorted (l : List String) : List String := l.foldr sortInsert []

def unescapeAux : List Char → List Char
  | [] => []
  | '\\' :: c :: rest => c :: unescapeAux rest
  | c :: rest => c :: unescapeAux rest

/-- _unescape_text: a backslash escapes the next character (src/server.py 224-236). -/
def unescape_text (s : String) : String := String.mk (unescapeAux s.toList)

def collapseAux : Bool → List Char → List Char
  | _, [] => []
  | prev, c :: rest =>
    if c = ' ' then (if prev then collapseAux true rest else c :: collapseAux true rest)
    else c :: collapseAux false rest

/-- _collapse_spaces: collapse runs of spaces to one, preserving tabs
(src/server.py 238-250). -/
def collapse_spaces (s : String) : String := String.mk (collapseAux false s.toList)

/-- The standard base64 alphabet used by Python's base64.b64encode. -/
def b64Chars : List Char :=
  "ABCDEFGHIJKLMNOPQRSTUVWXYZabcdefghijklmnopqrstuvwxyz0123456789+/".toList

def b64Char (n : Nat) : Char := b64Chars.getD n 'A'

def b64EncodeAux : List Nat → List Char
  | [] => []
  | [a] => [b64Char (a / 4), b64Char (a % 4 * 16), '=', '=']
  | [a, b] => [b64Char (a / 4), b64Char (a % 4 * 16 + b / 16), b64Char (b % 16 * 4), '=']
  | a :: b :: c :: rest =>
    b64Char (a / 4) :: b64Char (a % 4 * 16 + b / 16) ::
      b64Char (b % 16 * 4 + c / 64) :: b64Char (c % 64) :: b64EncodeAux rest

/-- _gen_base64_22 (src/server.py 129-130): base64.b64encode over the 16 bytes
produced by os.urandom(16), with trailing padding stripped.  The byte source is
made explicit as the `bytes` argument. -/
def gen_base64_22 (bytes : List Nat) : String :=
  String.mk (((b64EncodeAux bytes).reverse.dropWhile (· = '=')).reverse)

/-- Wire message type bytes (src/server.py 24-29). -/
def msgTypeNormal : Nat := 1

def msgTypeNbmsg : Nat := 2

def msgTypeMsgAll : Nat := 3

def msgTypeTell : Nat := 4

def msgTypeChannels : Nat := 5

def msgTypeBci : Nat := 6

/-- Keepalive constants (src/server.py 20-21). -/
def pingSeconds : Int := 30

def pingTimeoutSeconds : Int := 75

/-- The Client dataclass (src/server.py 252-264).  `cid` models object/socket
identity; the raw read buffer and the isClosing reentrancy guard are below the
line-level granularity of this embedding. -/
structure Client where
  cid : Nat
  charName : String
  authorized : Bool
  lastPingAt : Int
  lastPongAt : Int
  pendingMsgType : Option Nat
  localEcho : Bool
  chanList : String
  deriving Repr, DecidableEq

/-- The observable server state: the client registry (in insertion order, as a
Python dict), configuration, and the recorded effects: lines sent to sockets
(`out`, in send order), log-only system notices (`log`), and disconnections
with their reasons (`disconnects`). -/
structure ServerState where
  clients : List Client
  password : Option String
  maxClients : Nat
  out : List (Nat × String)
  log : List String
  disconnects : List (Nat × String)
  deriving Repr, DecidableEq

def txLine (st : ServerState) (dst : Nat) (text : String) : ServerState :=
  { st with out := st.out ++ [(dst, text)] }

def logSystem (st : ServerState) (text : String) : ServerState :=
  { st with log := st.log ++ [text] }

def findClient (st : ServerState) (cid : Nat) : Option Client :=
  st.clients.find? (fun c => c.cid == cid)

def removeClient (st : ServerState) (cid : Nat) : ServerState :=
  { st with clients := st.clients.filter (fun c => !(c.cid == cid)) }

def updateClient (st : ServerState) (cid : Nat) (f : Client → Client) : ServerState :=
  { st with clients := st.clients.map (fun c => if c.cid == cid then f c else c) }

/-- _all_names_sorted (src/server.py 581-582). -/
def allNamesSorted (st : ServerState) : List String :=
  pySorted ((st.clients.filter (fun c => c.authorized && !(c.charName == ""))).map
    (fun c => c.charName))

/-- _roster_line (src/server.py 584-585). -/
def rosterLine (st : ServerState) : String :=
  String.intercalate " " (allNamesSorted st)

/-- _broadcastControl (src/server.py 616-620). -/
def broadcastControl (st : ServerState) (line : String) : ServerState :=
  st.clients.foldl (fun acc dst => if dst.authorized then txLine acc dst.cid line else acc) st

/-- _broadcastNbClientList (src/server.py 709-711). -/
def broadcastNbClientList (st : ServerState) : ServerState :=
  broadcastControl st ("\tNBCLIENTLIST=" ++ rosterLine st)

/-- _broadcastSystem (src/server.py 706-708): log-only, never sent to clients. -/
def broadcastSystem (st : ServerState) (text : String) : ServerState :=
  logSystem st text

/-- _disconnect (src/server.py 358-383): remove the client first, then (only if
it was authorized with a name) notify the remaining sessions. -/
def disconnect (st : ServerState) (cid : Nat) (reason : String) : ServerState :=
  match findClient st cid with
  | none => st
  | some cli =>
    let st1 := { removeClient st cid with disconnects := st.disconnects ++ [(cid, reason)] }
    if cli.authorized && !(cli.charName == "") then
      let st2 := broadcastControl st1 ("\tNBQUIT=" ++ cli.charName)
      let st3 := broadcastSystem st2 ("-- " ++ cli.charName ++ " has left the server.")
      broadcastNbClientList st3
    else st1

/-- Recipient guard shared by both _broadcastMsgAll loops (src/server.py 626-641):
authorized, and not the sender unless the sender has localEcho on. -/
def msgAllRecipOk (src dst : Client) : Bool :=
  dst.authorized && !(dst.cid == src.cid && !src.localEcho)

/-- _broadcastMsgAll (src/server.py 622-641). -/
def broadcastMsgAll (st : ServerState) (src : Client) (msg : String) : ServerState :=
  let body := collapse_spaces (pyStrip msg)
  if strStartsWith body "//" then
    st.clients.foldl (fun acc dst =>
      if msgAllRecipOk src dst then
        txLine acc dst.cid ("<" ++ src.charName ++ "> " ++ dst.charName ++ " " ++ body)
      else acc) st
  else
    st.clients.foldl (fun acc dst =>
      if msgAllRecipOk src dst then
        txLine acc dst.cid ("<" ++ src.charName ++ "> " ++ body)
      else acc) st

/-- _broadcastNbpkt (src/server.py 642-650): never echoed to the sender. -/
def broadcastNbpkt (st : ServerState) (src : Client) (msg : String) : ServerState :=
  st.clients.foldl (fun acc dst =>
    if dst.authorized && !(dst.cid == src.cid) then
      txLine acc dst.cid ("\tNBPKT:" ++ src.charName ++ ":" ++ msg)
    else acc) st

/-- Channel-delivery guard shared by _routeTell and _handleBci
(src/server.py 662-671, 686-696). -/
def chanRecipOk (src : Client) (target : String) (dst : Client) : Bool :=
  dst.authorized && !(dst.cid == src.cid && !src.localEcho) && !(dst.chanList == "") &&
    (pySplitWs dst.chanList).contains target

/-- The channel-delivery loop with "No such name." fallback, shared verbatim by
_routeTell and _handleBci (src/server.py 661-674 and 685-698). -/
def chanDeliver (st : ServerState) (src : Client) (target line : String) : ServerState :=
  let r := st.clients.foldl (fun acc dst =>
    if chanRecipOk src target dst then (txLine acc.1 dst.cid line, true) else acc) (st, false)
  if r.2 then r.1 else txLine r.1 src.cid ("-- " ++ target ++ ": No such name.")

/-- _routeTell (src/server.py 652-674). -/
def routeTell (st : ServerState) (src : Client) (target msg : String) : ServerState :=
  if target == "" then st
  else
    match st.clients.find? (fun dst => dst.authorized && strLower dst.charName == strLower target) with
    | some dst => txLine st dst.cid ("[" ++ src.charName ++ "] " ++ msg)
    | none => chanDeliver st src target ("[" ++ src.charName ++ "] " ++ msg)

/-- _handleBci (src/server.py 676-698): as _routeTell with brace wrapping. -/
def handleBci (st : ServerState) (src : Client) (target msg : String) : ServerState :=
  if target == "" then st
  else
    match st.clients.find? (fun dst => dst.authorized && strLower dst.charName == strLower target) with
    | some dst => txLine st dst.cid ("\x7b" ++ src.charName ++ "\x7d " ++ msg)
    | none => chanDeliver st src target ("\x7b" ++ src.charName ++ "\x7d " ++ msg)

/-- Command token extraction of _handle_command (src/server.py 526-528). -/
def cmdToken (cmdLine : String) : String := strUpper (pyStrip (pySplitOnce ' ' cmdLine).1)

/-- Command argument extraction of _handle_command (src/server.py 526-528). -/
def cmdArg (cmdLine : String) : String := ((pySplitOnce ' ' cmdLine).2).getD ""

/-- The LOCALECHO truthiness test (src/server.py 545-546). -/
def localEchoVal (arg : String) : Bool :=
  pyStrip arg == "1" || strUpper (pyStrip arg) == "ON" || strUpper (pyStrip arg) == "TRUE"

/-- _handle_command (src/server.py 521-574). -/
def handleCommand (st : ServerState) (cid : Nat) (cmdLine : String) (now : Int) : ServerState :=
  if cmdLine == "" then st
  else if cmdToken cmdLine == "PONG" then updateClient st cid (fun c => { c with lastPongAt := now })
  else if cmdToken cmdLine == "NAMES" then
    txLine st cid ("-- Names: " ++ String.intercalate " " (allNamesSorted st) ++ " .")
  else if cmdToken cmdLine == "NBNAMES" then
    txLine st cid ("\tNBCLIENTLIST=" ++ rosterLine st)
  else if cmdToken cmdLine == "DISCONNECT" then
    disconnect st cid "client requested disconnect"
  else if cmdToken cmdLine == "LOCALECHO" then
    txLine (updateClient st cid (fun c => { c with localEcho := localEchoVal (cmdArg cmdLine) }))
      cid ("-- Local Echo: " ++ (if localEchoVal (cmdArg cmdLine) then "ON" else "OFF"))
  else if cmdToken cmdLine == "NBMSG" then
    updateClient st cid (fun c => { c with pendingMsgType := some msgTypeNbmsg })
  else if cmdToken cmdLine == "MSGALL" then
    updateClient st cid (fun c => { c with pendingMsgType := some msgTypeMsgAll })
  else if cmdToken cmdLine == "TELL" then
    updateClient st cid (fun c => { c with pendingMsgType := some msgTypeTell })
  else if cmdToken cmdLine == "CHANNELS" then
    updateClient st cid (fun c => { c with pendingMsgType := some msgTypeChannels })
  else if cmdToken cmdLine == "BCI" then
    updateClient st cid (fun c => { c with pendingMsgType := some msgTypeBci })
  else txLine st cid ("-- Unknown Command: " ++ cmdToken cmdLine)

/-- The per-victim guard of _kickSameName (src/server.py 716-719): another
connection, authorized, holding a nonempty name exactly equal to the newcomer's. -/
def kickCond (newCid : Nat) (name : String) (dst : Client) : Bool :=
  !(dst.cid == newCid) && dst.authorized && !(dst.charName == "") && dst.charName == name

/-- _kickSameName (src/server.py 713-720), iterating over a snapshot of the registry. -/
def kickSameName (st : ServerState) (newCid : Nat) (name : String) : ServerState :=
  (st.clients.map (fun c => c.cid)).foldl (fun acc dcid =>
    match findClient acc dcid with
    | none => acc
    | some dst =>
      if kickCond newCid name dst then
        disconnect acc dcid "duplicate name (replaced by new connection)"
      else acc) st

/-- The field mutations of a successful login (src/server.py 500-503): store the
name, mark authorized, reset both keepalive clocks. -/
def loginUpd (name : String) (now : Int) (c : Client) : Client :=
  { c with charName := name, authorized := true, lastPingAt := now, lastPongAt := now }

/-- The successful-login tail of _handle_login_or_buffer (src/server.py 499-518). -/
def loginSuccess (st : ServerState) (cid : Nat) (name remainder : String) (now : Int) :
    ServerState :=
  let st1 := updateClient st cid (loginUpd name now)
  let st2 := kickSameName st1 cid name
  let st3 := broadcastControl st2 ("\tNBJOIN=" ++ name)
  let st4 := txLine st3 cid ("\tNBCLIENTLIST=" ++ rosterLine st3)
  let st5 := broadcastSystem st4 ("-- " ++ name ++ " has joined the server.")
  let st6 := broadcastNbClientList st5
  let rem := pyLStrip remainder
  if strStartsWith rem "\t" then
    handleCommand st6 cid (pyStrip (strDropChars rem 1)) now
  else st6

/-- LOGIN line parsing (src/server.py 468-487): returns
(providedPassword, raw name, remainder after the first semicolon). -/
def loginParse (line : String) : Option String × String × String :=
  let sp := pySplitOnce ';' line
  let loginPart := sp.1
  let remainder := (sp.2).getD ""
  if strStartsWith loginPart "LOGIN:" then
    match pySplitOnce '=' (strDropChars loginPart 6) with
    | (_, none) => (none, "", remainder)
    | (pw, some nm) => (some pw, nm, remainder)
  else if strStartsWith loginPart "LOGIN=" then
    (none, strDropChars loginPart 6, remainder)
  else (none, "", remainder)

/-- _handle_login_or_buffer (src/server.py 460-518). -/
def handle_login_or_buffer (st : ServerState) (cid : Nat) (line : String) (now : Int) :
    ServerState :=
  if !(strStartsWith line "LOGIN") then st
  else if pyStrip (loginParse line).2.1 == "" then disconnect st cid "empty login name"
  else
    match st.password with
    | some pw =>
      if !((loginParse line).1 == some pw) then disconnect st cid "bad password"
      else loginSuccess st cid (pyStrip (loginParse line).2.1) (loginParse line).2.2 now
    | none => loginSuccess st cid (pyStrip (loginParse line).2.1) (loginParse line).2.2 now

/-- Clearing the pending-type latch (cli.pendingMsgType = None, src/server.py 418). -/
def clearPending (c : Client) : Client := { c with pendingMsgType := none }

/-- _rx_line (src/server.py 399-457). -/
def rx_line (st : ServerState) (cid : Nat) (line : String) (now : Int) : ServerState :=
  match findClient st cid with
  | none => st
  | some cli =>
    if !cli.authorized then handle_login_or_buffer st cid line now
    else if strStartsWith line "\t" then
      handleCommand st cid (pyStrip (strDropChars line 1)) now
    else if line == "" then st
    else
      match cli.pendingMsgType with
      | some t =>
        if t == msgTypeNbmsg then broadcastNbpkt (updateClient st cid clearPending) cli line
        else if t == msgTypeMsgAll then broadcastMsgAll (updateClient st cid clearPending) cli line
        else if t == msgTypeTell then
          routeTell (updateClient st cid clearPending) cli (pySplitOnce ' ' line).1
            (unescape_text (((pySplitOnce ' ' line).2).getD ""))
        else if t == msgTypeChannels then
          txLine (updateClient (updateClient st cid clearPending) cid
              (fun c => { c with chanList := pyStrip line })) cid
            (cli.charName ++ " joined channels " ++ pyStrip line ++ ".")
        else if t == msgTypeBci then
          handleBci (updateClient st cid clearPending) cli (pySplitOnce ' ' line).1
            (unescape_text (((pySplitOnce ' ' line).2).getD ""))
        else updateClient st cid clearPending
      | none => broadcastMsgAll st cli line

/-- The periodic-PING half of the keepalive tick body (src/server.py 728-733). -/
def tickPing (now : Int) (st : ServerState) (cid : Nat) (cli : Client) : ServerState :=
  if cli.lastPingAt + pingSeconds ≤ now then
    updateClient (txLine st cid "\tPING") cid (fun c => { c with lastPingAt := now })
  else st

/-- One authorized client's share of the keepalive tick (loop body of _tick,
src/server.py 723-745).  The PING half runs first; the timeout half reads the
client's lastPongAt, which the PING half never touches. -/
def tickOne (timeout now : Int) (st : ServerState) (cid : Nat) : ServerState :=
  match findClient st cid with
  | none => st
  | some cli =>
    if !cli.authorized then st
    else if timeout > 0 then
      if cli.lastPongAt + timeout ≤ now then
        disconnect (tickPing now st cid cli) cid
          ("timeout > " ++ toString timeout ++ "s without PONG")
      else tickPing now st cid cli
    else
      if cli.lastPongAt + pingTimeoutSeconds ≤ now then
        updateClient (tickPing now st cid cli) cid (fun c => { c with lastPongAt := now })
      else tickPing now st cid cli

/-- _tick (src/server.py 723-745), iterating over a snapshot of the registry.
`timeout` is the env-driven CLIENT_TIMEOUT value. -/
def tick (timeout now : Int) (st : ServerState) : ServerState :=
  (st.clients.map (fun c => c.cid)).foldl (tickOne timeout now) st

/-- _accept (src/server.py 309-330): at capacity the connection is refused and
never registered; otherwise an unauthorized client is appended. -/
def acceptConn (st : ServerState) (cid : Nat) (now : Int) : ServerState :=
  if st.maxClients ≤ st.clients.length then st
  else
    { st with clients := st.clients ++ [Client.mk cid "" false now now none false ""] }

def initState (pw : Option String) (mc : Nat) : ServerState :=
  { clients := [], password := pw, maxClients := mc, out := [], log := [], disconnects := [] }

/-- One event-loop step: an accepted connection (with a fresh socket id), a
complete received line, a keepalive tick, or an I/O-level disconnect. -/
inductive Step (timeout : Int) : ServerState → ServerState → Prop
  | accept (st : ServerState) (cid : Nat) (now : Int)
      (fresh : ∀ c ∈ st.clients, c.cid ≠ cid) :
      Step timeout st (acceptConn st cid now)
  | rx (st : ServerState) (cid : Nat) (line : String) (now : Int) :
      Step timeout st (rx_line st cid line now)
  | tickEv (st : ServerState) (now : Int) :
      Step timeout st (tick timeout now st)
  | drop (st : ServerState) (cid : Nat) (reason : String) :
      Step timeout st (disconnect st cid reason)

/-- States reachable from a freshly started server. -/
inductive Reachable (timeout : Int) (pw : Option String) (mc : Nat) : ServerState → Prop
  | init : Reachable timeout pw mc (initState pw mc)
  | step {st st' : ServerState} :
      Reachable timeout pw mc st → Step timeout st st' → Reachable timeout pw mc st'

/-- Password policy modes of _parse_pw_policy (src/server.py 107-127). -/
inductive PwMode where
  | noneMode : PwMode
  | autoMode : PwMode
  | defined : String → PwMode
  deriving Repr, DecidableEq

def pwFalsyTokens : List String := ["null", "none", "unset", "default", "false", "0", "off", "no"]

/-- _parse_pw_policy (src/server.py 107-127). -/
def parse_pw_policy (raw : Option String) : PwMode :=
  match raw with
  | none => .noneMode
  | some r =>
    let t := pyStrip r
    if t == "" then .noneMode
    else
      let tl := strLower t
      if pwFalsyTokens.contains tl then .noneMode
      else if tl == "auto" then .autoMode
      else .defined t

/-- Process-wide mutable context of the password resolver: the module-level
_AUTO_MASTER_PASSWORD_CACHE, a counter of os.urandom draws (the `entropy`
argument of the resolver supplies the bytes of each draw in order), and the
log lines that reveal generated tokens. -/
structure PwProcess where
  cache : Option String
  urandomCalls : Nat
  securityLog : List String
  deriving Repr, DecidableEq

def initPwProcess : PwProcess :=
  { cache := none, urandomCalls := 0, securityLog := [] }

/-- The _master_effective closure inside resolve_instance_password
(src/server.py 154-166). -/
def masterEffective (entropy : Nat → List Nat) (mMode : PwMode) (ps : PwProcess) :
    Option String × PwProcess :=
  match mMode with
  | .noneMode => (none, ps)
  | .defined v => (some v, ps)
  | .autoMode =>
    match ps.cache with
    | some t => (some t, ps)
    | none =>
      (some (gen_base64_22 (entropy ps.urandomCalls)),
        PwProcess.mk (some (gen_base64_22 (entropy ps.urandomCalls))) (ps.urandomCalls + 1)
          (ps.securityLog ++
            ["Generated master password (auto): " ++ gen_base64_22 (entropy ps.urandomCalls)]))

/-- resolve_instance_password (src/server.py 132-189), with os.urandom made
explicit as `entropy` (the k-th generation call consumes `entropy k`). -/
def resolve_instance_password (entropy : Nat → List Nat) (masterRaw instRaw : Option String)
    (ps : PwProcess) : Option String × PwProcess :=
  match parse_pw_policy instRaw with
  | .noneMode => masterEffective entropy (parse_pw_policy masterRaw) ps
  | .defined v => (some v, ps)
  | .autoMode =>
    (some (gen_base64_22 (entropy ps.urandomCalls)),
      PwProcess.mk ps.cache (ps.urandomCalls + 1)
        (ps.securityLog ++
          ["Generated password for instance (auto): " ++ gen_base64_22 (entropy ps.urandomCalls)]))

/-- Modelled from the spec's words ("URL-safe ~22-character token"): a token is
URL-safe when it contains only alphanumerics, hyphen and underscore. -/
def urlSafeToken_spec (s : String) : Bool :=
  s.toList.all (fun c => c.isAlphanum || c = '-' || c = '_')

/- ---------------- basic state lemmas ---------------- -/

@[simp] theorem txLine_clients (st : ServerState) (d : Nat) (s : String) :
    (txLine st d s).clients = st.clients := rfl

@[simp] theorem txLine_password (st : ServerState) (d : Nat) (s : String) :
    (txLine st d s).password = st.password := rfl

@[simp] theorem txLine_log (st : ServerState) (d : Nat) (s : String) :
    (txLine st d s).log = st.log := rfl

@[simp] theorem txLine_disconnects (st : ServerState) (d : Nat) (s : String) :
    (txLine st d s).disconnects = st.disconnects := rfl

@[simp] theorem txLine_out (st : ServerState) (d : Nat) (s : String) :
    (txLine st d s).out = st.out ++ [(d, s)] := rfl

@[simp] theorem logSystem_clients (st : ServerState) (s : String) :
    (logSystem st s).clients = st.clients := rfl

@[simp] theorem logSystem_out (st : ServerState) (s : String) :
    (logSystem st s).out = st.out := rfl

@[simp] theorem logSystem_log (st : ServerState) (s : String) :
    (logSystem st s).log = st.log ++ [s] := rfl

@[simp] theorem logSystem_disconnects (st : ServerState) (s : String) :
    (logSystem st s).disconnects = st.disconnects := rfl

@[simp] theorem updateClient_clients (st : ServerState) (cid : Nat) (f : Client → Client) :
    (updateClient st cid f).clients
      = st.clients.map (fun c => if c.cid == cid then f c else c) := rfl

@[simp] theorem updateClient_out (st : ServerState) (cid : Nat) (f : Client → Client) :
    (updateClient st cid f).out = st.out := rfl

@[simp] theorem updateClient_log (st : ServerState) (cid : Nat) (f : Client → Client) :
    (updateClient st cid f).log = st.log := rfl

@[simp] theorem updateClient_disconnects (st : ServerState) (cid : Nat) (f : Client → Client) :
    (updateClient st cid f).disconnects = st.disconnects := rfl

@[simp] theorem removeClient_clients (st : ServerState) (cid : Nat) :
    (removeClient st cid).clients = st.clients.filter (fun c => !(c.cid == cid)) := rfl

/-- A fold that conditionally sends one line per list element changes only `out`,
appending exactly one line per element passing the guard, in list order. -/
theorem foldl_tx_eq (l : List Client) (p : Client → Bool) (m : Client → Nat × String)
    (s : ServerState) :
    l.foldl (fun acc d => if p d then txLine acc (m d).1 (m d).2 else acc) s
      = { s with out := s.out ++ (l.filter p).map m } := by
  induction l generalizing s with
  | nil => simp
  | cons d l ih =>
    by_cases h : p d
    · rw [List.foldl_cons, if_pos h, ih]
      simp [txLine, List.filter_cons, h, List.append_assoc]
    · rw [List.foldl_cons, if_neg (by simp [h]), ih]
      simp [List.filter_cons, h]

/-- The delivered-flag variant used by the channel loops of _routeTell/_handleBci. -/
theorem foldl_tx_flag_eq (l : List Client) (p : Client → Bool) (m : Client → Nat × String)
    (s : ServerState) (b : Bool) :
    l.foldl (fun acc d => if p d then (txLine acc.1 (m d).1 (m d).2, true) else acc) (s, b)
      = ({ s with out := s.out ++ (l.filter p).map m }, b || l.any p) := by
  induction l generalizing s b with
  | nil => simp
  | cons d l ih =>
    by_cases h : p d
    · rw [List.foldl_cons, if_pos h, ih]
      simp [txLine, List.filter_cons, h, List.append_assoc]
    · rw [List.foldl_cons, if_neg (by simp [h]), ih]
      simp [List.filter_cons, h]

theorem broadcastControl_eq (st : ServerState) (line : String) :
    broadcastControl st line
      = { st with out := st.out ++ (st.clients.filter (fun c => c.authorized)).map (fun c => (c.cid, line)) } := by
  unfold broadcastControl
  exact foldl_tx_eq st.clients (fun c => c.authorized) (fun c => (c.cid, line)) st

theorem broadcastNbClientList_eq (st : ServerState) :
    broadcastNbClientList st
      = { st with out := st.out ++ (st.clients.filter (fun c => c.authorized)).map (fun c => (c.cid, "\tNBCLIENTLIST=" ++ rosterLine st)) } := by
  unfold broadcastNbClientList
  exact broadcastControl_eq st _

theorem broadcastNbpkt_eq (st : ServerState) (src : Client) (msg : String) :
    broadcastNbpkt st src msg
      = { st with out := st.out ++ (st.clients.filter (fun d => d.authorized && !(d.cid == src.cid))).map (fun d => (d.cid, "\tNBPKT:" ++ src.charName ++ ":" ++ msg)) } := by
  unfold broadcastNbpkt
  exact foldl_tx_eq st.clients (fun d => d.authorized && !(d.cid == src.cid))
    (fun d => (d.cid, "\tNBPKT:" ++ src.charName ++ ":" ++ msg)) st

/-- find? by connection id commutes with any id-preserving per-client map. -/
theorem find_cid_map (l : List Client) (g : Client → Client) (hg : ∀ c, (g c).cid = c.cid)
    (cid : Nat) :
    (l.map g).find? (fun c => c.cid == cid) = (l.find? (fun c => c.cid == cid)).map g := by
  induction l with
  | nil => rfl
  | cons c l ih =>
    by_cases h : c.cid == cid
    · have hgc : ((g c).cid == cid) = true := by rw [hg]; exact h
      simp [List.find?_cons, h, hgc]
    · have hgc : ((g c).cid == cid) = false := by rw [hg]; exact Bool.of_not_eq_true h
      simp [List.find?_cons, h, hgc, ih]

theorem findClient_update_self (st : ServerState) (cid : Nat) (f : Client → Client)
    (hf : ∀ c, (f c).cid = c.cid) :
    findClient (updateClient st cid f) cid = (findClient st cid).map f := by
  unfold findClient
  rw [updateClient_clients,
    find_cid_map st.clients _ (fun c => by by_cases h : c.cid == cid <;> simp [h, hf]) cid]
  cases h : st.clients.find? (fun c => c.cid == cid) with
  | none => rfl
  | some c =>
    have hc : c.cid = cid := by simpa using List.find?_some h
    simp [hc]

theorem findClient_update_other (st : ServerState) (cid cid' : Nat) (f : Client → Client)
    (hf : ∀ c, (f c).cid = c.cid) (hne : cid' ≠ cid) :
    findClient (updateClient st cid f) cid' = findClient st cid' := by
  unfold findClient
  rw [updateClient_clients,
    find_cid_map st.clients _ (fun c => by by_cases h : c.cid == cid <;> simp [h, hf]) cid']
  cases h : st.clients.find? (fun c => c.cid == cid') with
  | none => rfl
  | some c =>
    have hc : (c.cid == cid') = true := by simpa using List.find?_some h
    have hc2 : c.cid = cid' := by simpa using hc
    have hc3 : (c.cid == cid) = false := by simp [hc2, hne]
    show some (if c.cid == cid then f c else c) = some c
    simp [hc3]

@[simp] theorem broadcastControl_clients (st : ServerState) (line : String) :
    (broadcastControl st line).clients = st.clients := by rw [broadcastControl_eq]

@[simp] theorem broadcastControl_log (st : ServerState) (line : String) :
    (broadcastControl st line).log = st.log := by rw [broadcastControl_eq]

@[simp] theorem broadcastControl_disconnects (st : ServerState) (line : String) :
    (broadcastControl st line).disconnects = st.disconnects := by rw [broadcastControl_eq]

@[simp] theorem broadcastNbClientList_clients (st : ServerState) :
    (broadcastNbClientList st).clients = st.clients := by rw [broadcastNbClientList_eq]

@[simp] theorem broadcastNbClientList_log (st : ServerState) :
    (broadcastNbClientList st).log = st.log := by rw [broadcastNbClientList_eq]

@[simp] theorem broadcastNbClientList_disconnects (st : ServerState) :
    (broadcastNbClientList st).disconnects = st.disconnects := by rw [broadcastNbClientList_eq]

theorem disconnect_clients (st : ServerState) (cid : Nat) (r : String) :
    (disconnect st cid r).clients = st.clients.filter (fun c => !(c.cid == cid)) := by
  unfold disconnect
  cases h : findClient st cid with
  | none =>
    have hall : ∀ c ∈ st.clients, (c.cid == cid) = false := by
      intro c hc
      have := List.find?_eq_none.mp h c hc
      simpa using this
    simp only [h]
    exact (List.filter_eq_self.mpr (fun c hc => by simp [hall c hc])).symm
  | some cli =>
    simp only [h]
    by_cases ha : (cli.authorized && !(cli.charName == "")) = true
    · simp [ha, removeClient, broadcastSystem]
    · simp only [ha, if_false, Bool.false_eq_true]
      simp [removeClient]

theorem disconnect_not_auth_eq (st : ServerState) (cid : Nat) (cli : Client) (r : String)
    (h : findClient st cid = some cli)
    (ha : (cli.authorized && !(cli.charName == "")) = false) :
    disconnect st cid r
      = { st with clients := st.clients.filter (fun c => !(c.cid == cid)),
                  disconnects := st.disconnects ++ [(cid, r)] } := by
  unfold disconnect
  rw [h]
  simp [ha, removeClient]

theorem disconnect_disconnects_some (st : ServerState) (cid : Nat) (cli : Client) (r : String)
    (h : findClient st cid = some cli) :
    (disconnect st cid r).disconnects = st.disconnects ++ [(cid, r)] := by
  unfold disconnect
  rw [h]
  by_cases ha : (cli.authorized && !(cli.charName == "")) = true
  · simp [ha, broadcastSystem, removeClient]
  · simp [ha, removeClient]

/-- The lstrip-then-tab-check on the login remainder (src/server.py 516-517) can
never succeed: lstrip removes every leading whitespace character, tabs included. -/
theorem lstrip_never_tab (r : String) : strStartsWith (pyLStrip r) "\t" = false := by
  unfold strStartsWith pyLStrip
  show ("\t".toList.isPrefixOf (r.toList.dropWhile pySpace)) = false
  generalize r.toList = l
  induction l with
  | nil => rfl
  | cons c l ih =>
    by_cases h : pySpace c
    · simpa [List.dropWhile_cons, h] using ih
    · have hc : ('\t' == c) = false := by
        have hcc : c ≠ '\t' := fun hh => by rw [hh] at h; exact h rfl
        simp [beq_iff_eq]
        exact fun hh => hcc hh.symm
      simp [List.dropWhile_cons, h, List.isPrefixOf, hc]

/-- Clients surviving one pass of the _kickSameName loop over the snapshot `L` of
connection ids: exactly those not both listed in `L` and matching the kick guard. -/
theorem kickFold_clients (newCid : Nat) (name : String) (L : List Nat) (s : ServerState)
    (hnd : (s.clients.map (fun c => c.cid)).Nodup) :
    (L.foldl (fun acc dcid =>
      match findClient acc dcid with
      | none => acc
      | some dst =>
        if kickCond newCid name dst then
          disconnect acc dcid "duplicate name (replaced by new connection)"
        else acc) s).clients
      = s.clients.filter (fun c => !(L.contains c.cid && kickCond newCid name c)) := by
  induction L generalizing s with
  | nil => simp
  | cons d L ih =>
    rw [List.foldl_cons]
    cases h : findClient s d with
    | none =>
      have hno : ∀ c ∈ s.clients, (c.cid == d) = false := by
        intro c hc
        have := List.find?_eq_none.mp h c hc
        simpa using this
      simp only [h]
      rw [ih s hnd]
      refine List.filter_congr ?_
      intro c hc
      have hcd : ¬(c.cid = d) := by simpa using hno c hc
      simp [List.contains_cons, hcd]
    | some dst =>
      have hmem : dst ∈ s.clients := List.mem_of_find?_eq_some h
      have hcid : dst.cid = d := by simpa using List.find?_some h
      by_cases hk : kickCond newCid name dst = true
      · simp only [h, hk, if_true]
        have hcl : (disconnect s d "duplicate name (replaced by new connection)").clients
            = s.clients.filter (fun c => !(c.cid == d)) := disconnect_clients s d _
        have hnd2 : ((disconnect s d "duplicate name (replaced by new connection)").clients.map
            (fun c => c.cid)).Nodup := by
          rw [hcl]
          exact List.Nodup.sublist ((List.filter_sublist s.clients).map (fun c => c.cid)) hnd
        rw [ih _ hnd2, hcl, List.filter_filter]
        refine List.filter_congr ?_
        intro c hc
        by_cases hcd : c.cid = d
        · have hceq : c = dst := List.inj_on_of_nodup_map hnd hc hmem (by rw [hcd, hcid])
          simp [List.contains_cons, hcd, hceq, hk, hcid]
        · simp [List.contains_cons, hcd]
      · have hk2 : kickCond newCid name dst = false := by simpa using hk
        simp only [h, hk2, Bool.false_eq_true, if_false]
        rw [ih s hnd]
        refine List.filter_congr ?_
        intro c hc
        by_cases hcd : c.cid = d
        · have hceq : c = dst := List.inj_on_of_nodup_map hnd hc hmem (by rw [hcd, hcid])
          simp [List.contains_cons, hcd, hceq, hk2]
        · simp [List.contains_cons, hcd]

theorem kickSameName_clients (st : ServerState) (newCid : Nat) (name : String)
    (hnd : (st.clients.map (fun c => c.cid)).Nodup) :
    (kickSameName st newCid name).clients
      = st.clients.filter (fun c => !(kickCond newCid name c)) := by
  unfold kickSameName
  rw [kickFold_clients newCid name (st.clients.map (fun c => c.cid)) st hnd]
  refine List.filter_congr ?_
  intro c hc
  have hmem : c.cid ∈ st.clients.map (fun c => c.cid) := List.mem_map_of_mem _ hc
  have hcont : (st.clients.map (fun c => c.cid)).contains c.cid = true :=
    List.elem_iff.mpr hmem
  simp [hcont]
  intro hforall
  exact absurd rfl (hforall c hc)

/-- When nobody matches the kick guard, the _kickSameName pass is a no-op. -/
theorem kickFold_noop (newCid : Nat) (name : String) (L : List Nat) (s : ServerState)
    (h : ∀ d ∈ s.clients, kickCond newCid name d = false) :
    L.foldl (fun acc dcid =>
      match findClient acc dcid with
      | none => acc
      | some dst =>
        if kickCond newCid name dst then
          disconnect acc dcid "duplicate name (replaced by new connection)"
        else acc) s = s := by
  induction L with
  | nil => rfl
  | cons d L ih =>
    rw [List.foldl_cons]
    cases hf : findClient s d with
    | none =>
      simp only [hf]
      exact ih
    | some dst =>
      have hk := h dst (List.mem_of_find?_eq_some hf)
      simp only [hf, hk, Bool.false_eq_true, if_false]
      exact ih

theorem kickSameName_noop (st : ServerState) (newCid : Nat) (name : String)
    (h : ∀ d ∈ st.clients, kickCond newCid name d = false) :
    kickSameName st newCid name = st := by
  unfold kickSameName
  exact kickFold_noop newCid name _ st h

/- ---------------- the registry invariant ---------------- -/

/-- The registry invariant: connection ids are unique, every authorized client
carries a nonempty name, and no two distinct authorized clients share an
exact-case name. -/
def ClientsOk (cs : List Client) : Prop :=
  (cs.map (fun c => c.cid)).Nodup ∧
  (∀ c ∈ cs, c.authorized = true → ¬(c.charName = "")) ∧
  (∀ c1 ∈ cs, ∀ c2 ∈ cs, c1.authorized = true → c2.authorized = true →
    c1.charName = c2.charName → c1.cid = c2.cid)

theorem clientsOk_sublist {cs cs' : List Client} (hs : cs'.Sublist cs) (h : ClientsOk cs) :
    ClientsOk cs' := by
  obtain ⟨h1, h2, h3⟩ := h
  refine ⟨List.Nodup.sublist (hs.map (fun c => c.cid)) h1, ?_, ?_⟩
  · intro c hc ha
    exact h2 c (hs.subset hc) ha
  · intro c1 hc1 c2 hc2 ha1 ha2 hname
    exact h3 c1 (hs.subset hc1) c2 (hs.subset hc2) ha1 ha2 hname

theorem clientsOk_filter (p : Client → Bool) (cs : List Client) (h : ClientsOk cs) :
    ClientsOk (cs.filter p) :=
  clientsOk_sublist (List.filter_sublist cs) h

theorem map_cid_update (cs : List Client) (cid : Nat) (f : Client → Client)
    (hf : ∀ c, (f c).cid = c.cid) :
    (cs.map (fun c => if c.cid == cid then f c else c)).map (fun c => c.cid)
      = cs.map (fun c => c.cid) := by
  rw [List.map_map]
  exact List.map_congr_left (fun a _ => by by_cases hx : a.cid = cid <;> simp [hx, hf])

theorem clientsOk_update (cs : List Client) (cid : Nat) (f : Client → Client)
    (hf : ∀ c, (f c).cid = c.cid ∧ (f c).charName = c.charName ∧ (f c).authorized = c.authorized)
    (h : ClientsOk cs) :
    ClientsOk (cs.map (fun c => if c.cid == cid then f c else c)) := by
  obtain ⟨h1, h2, h3⟩ := h
  have hgcid : ∀ c : Client, (if c.cid == cid then f c else c).cid = c.cid := by
    intro c
    by_cases hx : c.cid = cid <;> simp [hx, (hf c).1]
  have hgname : ∀ c : Client, (if c.cid == cid then f c else c).charName = c.charName := by
    intro c
    by_cases hx : c.cid = cid <;> simp [hx, (hf c).2.1]
  have hgauth : ∀ c : Client, (if c.cid == cid then f c else c).authorized = c.authorized := by
    intro c
    by_cases hx : c.cid = cid <;> simp [hx, (hf c).2.2]
  refine ⟨?_, ?_, ?_⟩
  · rw [map_cid_update cs cid f (fun c => (hf c).1)]
    exact h1
  · intro c hc ha
    obtain ⟨a, hma, rfl⟩ := List.mem_map.mp hc
    rw [hgname a]
    rw [hgauth a] at ha
    exact h2 a hma ha
  · intro c1 hc1 c2 hc2 ha1 ha2 hname
    obtain ⟨a1, hm1, rfl⟩ := List.mem_map.mp hc1
    obtain ⟨a2, hm2, rfl⟩ := List.mem_map.mp hc2
    rw [hgcid a1, hgcid a2]
    rw [hgauth a1] at ha1
    rw [hgauth a2] at ha2
    rw [hgname a1, hgname a2] at hname
    exact h3 a1 hm1 a2 hm2 ha1 ha2 hname

theorem stateOk_update (st : ServerState) (cid : Nat) (f : Client → Client)
    (hf : ∀ c, (f c).cid = c.cid ∧ (f c).charName = c.charName ∧ (f c).authorized = c.authorized)
    (h : ClientsOk st.clients) : ClientsOk (updateClient st cid f).clients := by
  rw [updateClient_clients]
  exact clientsOk_update st.clients cid f hf h

theorem stateOk_disconnect (st : ServerState) (cid : Nat) (r : String)
    (h : ClientsOk st.clients) : ClientsOk (disconnect st cid r).clients := by
  rw [disconnect_clients]
  exact clientsOk_filter _ _ h

@[simp] theorem loginUpd_cid (name : String) (now : Int) (c : Client) :
    (loginUpd name now c).cid = c.cid := rfl

@[simp] theorem loginUpd_charName (name : String) (now : Int) (c : Client) :
    (loginUpd name now c).charName = name := rfl

@[simp] theorem loginUpd_authorized (name : String) (now : Int) (c : Client) :
    (loginUpd name now c).authorized = true := rfl

@[simp] theorem loginUpd_pending (name : String) (now : Int) (c : Client) :
    (loginUpd name now c).pendingMsgType = c.pendingMsgType := rfl

theorem chanDeliver_eq (st : ServerState) (src : Client) (target line : String) :
    chanDeliver st src target line =
      if st.clients.any (chanRecipOk src target) then
        { st with out := st.out ++ (st.clients.filter (chanRecipOk src target)).map (fun d => (d.cid, line)) }
      else txLine st src.cid ("-- " ++ target ++ ": No such name.") := by
  unfold chanDeliver
  rw [foldl_tx_flag_eq st.clients (chanRecipOk src target) (fun d => (d.cid, line)) st false]
  by_cases hd : st.clients.any (chanRecipOk src target) = true
  · simp [hd]
  · have hall : ∀ a ∈ st.clients, ¬(chanRecipOk src target a = true) := by
      intro a ha hpa
      exact hd (List.any_eq_true.mpr ⟨a, ha, hpa⟩)
    have hnil : st.clients.filter (chanRecipOk src target) = [] :=
      List.filter_eq_nil_iff.mpr hall
    simp [hd, hnil, txLine]

@[simp] theorem chanDeliver_clients (st : ServerState) (src : Client) (target line : String) :
    (chanDeliver st src target line).clients = st.clients := by
  rw [chanDeliver_eq]
  split <;> simp

@[simp] theorem chanDeliver_log (st : ServerState) (src : Client) (target line : String) :
    (chanDeliver st src target line).log = st.log := by
  rw [chanDeliver_eq]
  split <;> simp

@[simp] theorem chanDeliver_disconnects (st : ServerState) (src : Client) (target line : String) :
    (chanDeliver st src target line).disconnects = st.disconnects := by
  rw [chanDeliver_eq]
  split <;> simp

theorem broadcastMsgAll_eq (st : ServerState) (src : Client) (msg : String) :
    broadcastMsgAll st src msg =
      { st with out := st.out ++ (st.clients.filter (msgAllRecipOk src)).map (fun d =>
        (d.cid, if strStartsWith (collapse_spaces (pyStrip msg)) "//" then
          "<" ++ src.charName ++ "> " ++ d.charName ++ " " ++ collapse_spaces (pyStrip msg)
        else "<" ++ src.charName ++ "> " ++ collapse_spaces (pyStrip msg))) } := by
  unfold broadcastMsgAll
  by_cases h : strStartsWith (collapse_spaces (pyStrip msg)) "//" = true
  · simp only [h, if_true]
    exact foldl_tx_eq st.clients (msgAllRecipOk src)
      (fun d => (d.cid, "<" ++ src.charName ++ "> " ++ d.charName ++ " " ++ collapse_spaces (pyStrip msg))) st
  · simp only [h, Bool.false_eq_true, if_false]
    exact foldl_tx_eq st.clients (msgAllRecipOk src)
      (fun d => (d.cid, "<" ++ src.charName ++ "> " ++ collapse_spaces (pyStrip msg))) st

@[simp] theorem broadcastMsgAll_clients (st : ServerState) (src : Client) (msg : String) :
    (broadcastMsgAll st src msg).clients = st.clients := by
  rw [broadcastMsgAll_eq]

@[simp] theorem broadcastMsgAll_log (st : ServerState) (src : Client) (msg : String) :
    (broadcastMsgAll st src msg).log = st.log := by
  rw [broadcastMsgAll_eq]

@[simp] theorem broadcastMsgAll_disconnects (st : ServerState) (src : Client) (msg : String) :
    (broadcastMsgAll st src msg).disconnects = st.disconnects := by
  rw [broadcastMsgAll_eq]

@[simp] theorem broadcastNbpkt_clients (st : ServerState) (src : Client) (msg : String) :
    (broadcastNbpkt st src msg).clients = st.clients := by
  rw [broadcastNbpkt_eq]

@[simp] theorem routeTell_clients (st : ServerState) (src : Client) (target msg : String) :
    (routeTell st src target msg).clients = st.clients := by
  unfold routeTell
  split
  · rfl
  · split <;> simp

@[simp] theorem handleBci_clients (st : ServerState) (src : Client) (target msg : String) :
    (handleBci st src target msg).clients = st.clients := by
  unfold handleBci
  split
  · rfl
  · split <;> simp

theorem handleCommand_ok (st : ServerState) (cid : Nat) (cmd : String) (now : Int)
    (h : ClientsOk st.clients) : ClientsOk (handleCommand st cid cmd now).clients := by
  unfold handleCommand
  by_cases h1 : (cmd == "") = true
  · rw [if_pos h1]
    exact h
  rw [if_neg h1]
  by_cases h2 : (cmdToken cmd == "PONG") = true
  · rw [if_pos h2]
    exact stateOk_update _ _ _ (fun c => ⟨rfl, rfl, rfl⟩) h
  rw [if_neg h2]
  by_cases h3 : (cmdToken cmd == "NAMES") = true
  · rw [if_pos h3]
    exact h
  rw [if_neg h3]
  by_cases h4 : (cmdToken cmd == "NBNAMES") = true
  · rw [if_pos h4]
    exact h
  rw [if_neg h4]
  by_cases h5 : (cmdToken cmd == "DISCONNECT") = true
  · rw [if_pos h5]
    exact stateOk_disconnect _ _ _ h
  rw [if_neg h5]
  by_cases h6 : (cmdToken cmd == "LOCALECHO") = true
  · rw [if_pos h6]
    exact stateOk_update _ _ _ (fun c => ⟨rfl, rfl, rfl⟩) h
  rw [if_neg h6]
  by_cases h7 : (cmdToken cmd == "NBMSG") = true
  · rw [if_pos h7]
    exact stateOk_update _ _ _ (fun c => ⟨rfl, rfl, rfl⟩) h
  rw [if_neg h7]
  by_cases h8 : (cmdToken cmd == "MSGALL") = true
  · rw [if_pos h8]
    exact stateOk_update _ _ _ (fun c => ⟨rfl, rfl, rfl⟩) h
  rw [if_neg h8]
  by_cases h9 : (cmdToken cmd == "TELL") = true
  · rw [if_pos h9]
    exact stateOk_update _ _ _ (fun c => ⟨rfl, rfl, rfl⟩) h
  rw [if_neg h9]
  by_cases h10 : (cmdToken cmd == "CHANNELS") = true
  · rw [if_pos h10]
    exact stateOk_update _ _ _ (fun c => ⟨rfl, rfl, rfl⟩) h
  rw [if_neg h10]
  by_cases h11 : (cmdToken cmd == "BCI") = true
  · rw [if_pos h11]
    exact stateOk_update _ _ _ (fun c => ⟨rfl, rfl, rfl⟩) h
  rw [if_neg h11]
  exact h

theorem loginSuccess_clients (st : ServerState) (cid : Nat) (name rem : String) (now : Int)
    (hnd : (st.clients.map (fun c => c.cid)).Nodup) :
    (loginSuccess st cid name rem now).clients
      = ((updateClient st cid (loginUpd name now)).clients).filter
          (fun c => !(kickCond cid name c)) := by
  have hnd1 : ((updateClient st cid (loginUpd name now)).clients.map (fun c => c.cid)).Nodup := by
    rw [updateClient_clients, map_cid_update st.clients cid (loginUpd name now) (fun c => rfl)]
    exact hnd
  unfold loginSuccess
  simp only [lstrip_never_tab, Bool.false_eq_true, if_false, broadcastNbClientList_clients,
    broadcastSystem, logSystem_clients, txLine_clients, broadcastControl_clients]
  exact kickSameName_clients _ cid name hnd1

theorem loginSuccess_ok (st : ServerState) (cid : Nat) (name rem : String) (now : Int)
    (h : ClientsOk st.clients) (hn : ¬(name = "")) :
    ClientsOk (loginSuccess st cid name rem now).clients := by
  obtain ⟨h1, h2, h3⟩ := h
  rw [loginSuccess_clients st cid name rem now h1, updateClient_clients]
  refine ⟨?_, ?_, ?_⟩
  · refine List.Nodup.sublist (List.Sublist.map (fun c => c.cid) (List.filter_sublist
      (st.clients.map (fun c => if c.cid == cid then loginUpd name now c else c)))) ?_
    rw [map_cid_update st.clients cid (loginUpd name now) (fun c => rfl)]
    exact h1
  · intro c hc ha
    have hc2 := List.mem_of_mem_filter hc
    obtain ⟨a, hma, rfl⟩ := List.mem_map.mp hc2
    by_cases hx : a.cid = cid
    · have he : (if a.cid == cid then loginUpd name now a else a) = loginUpd name now a := by
        simp [hx]
      rw [he, loginUpd_charName]
      exact hn
    · have he : (if a.cid == cid then loginUpd name now a else a) = a := by simp [hx]
      rw [he] at ha ⊢
      exact h2 a hma ha
  · intro c1 hc1 c2 hc2 ha1 ha2 hname
    have hpc1 := List.of_mem_filter hc1
    have hpc2 := List.of_mem_filter hc2
    have hm1 := List.mem_of_mem_filter hc1
    have hm2 := List.mem_of_mem_filter hc2
    obtain ⟨a1, hma1, rfl⟩ := List.mem_map.mp hm1
    obtain ⟨a2, hma2, rfl⟩ := List.mem_map.mp hm2
    by_cases hx1 : a1.cid = cid <;> by_cases hx2 : a2.cid = cid
    · simp [hx1, hx2]
    · exfalso
      have he1 : (if a1.cid == cid then loginUpd name now a1 else a1) = loginUpd name now a1 := by
        simp [hx1]
      have he2 : (if a2.cid == cid then loginUpd name now a2 else a2) = a2 := by simp [hx2]
      rw [he1] at hname
      rw [he2] at hname ha2 hpc2
      have han : a2.charName = name := by simpa using hname.symm
      have hk : kickCond cid name a2 = true := by
        simp [kickCond, hx2, ha2, han, hn]
      simp [hk] at hpc2
    · exfalso
      have he1 : (if a1.cid == cid then loginUpd name now a1 else a1) = a1 := by simp [hx1]
      have he2 : (if a2.cid == cid then loginUpd name now a2 else a2) = loginUpd name now a2 := by
        simp [hx2]
      rw [he2] at hname
      rw [he1] at hname ha1 hpc1
      have han : a1.charName = name := by simpa using hname
      have hk : kickCond cid name a1 = true := by
        simp [kickCond, hx1, ha1, han, hn]
      simp [hk] at hpc1
    · have he1 : (if a1.cid == cid then loginUpd name now a1 else a1) = a1 := by simp [hx1]
      have he2 : (if a2.cid == cid then loginUpd name now a2 else a2) = a2 := by simp [hx2]
      rw [he1] at hname ha1 ⊢
      rw [he2] at hname ha2 ⊢
      exact h3 a1 hma1 a2 hma2 ha1 ha2 hname

theorem handle_login_ok (st : ServerState) (cid : Nat) (line : String) (now : Int)
    (h : ClientsOk st.clients) :
    ClientsOk (handle_login_or_buffer st cid line now).clients := by
  unfold handle_login_or_buffer
  by_cases h1 : (!(strStartsWith line "LOGIN")) = true
  · rw [if_pos h1]
    exact h
  rw [if_neg h1]
  by_cases h2 : (pyStrip (loginParse line).2.1 == "") = true
  · rw [if_pos h2]
    exact stateOk_disconnect _ _ _ h
  rw [if_neg h2]
  have hn : ¬(pyStrip (loginParse line).2.1 = "") := by simpa using h2
  cases hpw : st.password with
  | none => exact loginSuccess_ok _ _ _ _ _ h hn
  | some pw =>
    dsimp only
    by_cases h3 : (!((loginParse line).1 == some pw)) = true
    · rw [if_pos h3]
      exact stateOk_disconnect _ _ _ h
    · rw [if_neg h3]
      exact loginSuccess_ok _ _ _ _ _ h hn

theorem rx_line_ok (st : ServerState) (cid : Nat) (line : String) (now : Int)
    (h : ClientsOk st.clients) : ClientsOk (rx_line st cid line now).clients := by
  unfold rx_line
  cases hf : findClient st cid with
  | none => exact h
  | some cli =>
    dsimp only
    by_cases h1 : (!cli.authorized) = true
    · rw [if_pos h1]
      exact handle_login_ok _ _ _ _ h
    rw [if_neg h1]
    by_cases h2 : strStartsWith line "\t" = true
    · rw [if_pos h2]
      exact handleCommand_ok _ _ _ _ h
    rw [if_neg h2]
    by_cases h3 : (line == "") = true
    · rw [if_pos h3]
      exact h
    rw [if_neg h3]
    cases hp : cli.pendingMsgType with
    | none => simpa using h
    | some t =>
      dsimp only
      have hok : ClientsOk (updateClient st cid clearPending).clients :=
        stateOk_update _ _ _ (fun c => ⟨rfl, rfl, rfl⟩) h
      by_cases c1 : (t == msgTypeNbmsg) = true
      · rw [if_pos c1]
        simpa using hok
      rw [if_neg c1]
      by_cases c2 : (t == msgTypeMsgAll) = true
      · rw [if_pos c2]
        simpa using hok
      rw [if_neg c2]
      by_cases c3 : (t == msgTypeTell) = true
      · rw [if_pos c3]
        simpa using hok
      rw [if_neg c3]
      by_cases c4 : (t == msgTypeChannels) = true
      · rw [if_pos c4]
        exact stateOk_update _ _ _ (fun c => ⟨rfl, rfl, rfl⟩) hok
      rw [if_neg c4]
      by_cases c5 : (t == msgTypeBci) = true
      · rw [if_pos c5]
        simpa using hok
      rw [if_neg c5]
      exact hok

theorem tickPing_ok (now : Int) (st : ServerState) (cid : Nat) (cli : Client)
    (h : ClientsOk st.clients) : ClientsOk (tickPing now st cid cli).clients := by
  unfold tickPing
  by_cases h1 : cli.lastPingAt + pingSeconds ≤ now
  · rw [if_pos h1]
    exact stateOk_update _ _ _ (fun c => ⟨rfl, rfl, rfl⟩) h
  · rw [if_neg h1]
    exact h

theorem tickOne_ok (timeout now : Int) (st : ServerState) (cid : Nat)
    (h : ClientsOk st.clients) : ClientsOk (tickOne timeout now st cid).clients := by
  unfold tickOne
  cases hf : findClient st cid with
  | none => exact h
  | some cli =>
    dsimp only
    by_cases h1 : (!cli.authorized) = true
    · rw [if_pos h1]
      exact h
    rw [if_neg h1]
    by_cases h2 : timeout > 0
    · rw [if_pos h2]
      by_cases h3 : cli.lastPongAt + timeout ≤ now
      · rw [if_pos h3]
        exact stateOk_disconnect _ _ _ (tickPing_ok now st cid cli h)
      · rw [if_neg h3]
        exact tickPing_ok now st cid cli h
    · rw [if_neg h2]
      by_cases h4 : cli.lastPongAt + pingTimeoutSeconds ≤ now
      · rw [if_pos h4]
        exact stateOk_update _ _ _ (fun c => ⟨rfl, rfl, rfl⟩) (tickPing_ok now st cid cli h)
      · rw [if_neg h4]
        exact tickPing_ok now st cid cli h

theorem foldl_preserves {α : Type} (f : ServerState → α → ServerState)
    (hf : ∀ s a, ClientsOk s.clients → ClientsOk (f s a).clients) :
    ∀ (L : List α) (s : ServerState), ClientsOk s.clients → ClientsOk (L.foldl f s).clients := by
  intro L
  induction L with
  | nil => intro s hs; exact hs
  | cons a L ih =>
    intro s hs
    rw [List.foldl_cons]
    exact ih _ (hf s a hs)

theorem tick_ok (timeout now : Int) (st : ServerState) (h : ClientsOk st.clients) :
    ClientsOk (tick timeout now st).clients := by
  unfold tick
  exact foldl_preserves (tickOne timeout now) (tickOne_ok timeout now) _ st h

theorem acceptConn_ok (st : ServerState) (cid : Nat) (now : Int)
    (h : ClientsOk st.clients) (hfresh : ∀ c ∈ st.clients, c.cid ≠ cid) :
    ClientsOk (acceptConn st cid now).clients := by
  unfold acceptConn
  by_cases hcap : st.maxClients ≤ st.clients.length
  · rw [if_pos hcap]
    exact h
  rw [if_neg hcap]
  obtain ⟨h1, h2, h3⟩ := h
  show ClientsOk (st.clients ++ [Client.mk cid "" false now now none false ""])
  refine ⟨?_, ?_, ?_⟩
  · rw [List.map_append]
    refine List.Nodup.append h1 (by simp) ?_
    intro a ha hb
    have hac : a = cid := by simpa using hb
    obtain ⟨c, hc, hcc⟩ := List.mem_map.mp ha
    exact hfresh c hc (by rw [hcc, hac])
  · intro c hc ha
    rcases List.mem_append.mp hc with hcl | hcr
    · exact h2 c hcl ha
    · have he : c = Client.mk cid "" false now now none false "" := by simpa using hcr
      rw [he] at ha
      exact absurd ha (by simp)
  · intro c1 hc1 c2 hc2 ha1 ha2 hname
    rcases List.mem_append.mp hc1 with hl1 | hr1
    · rcases List.mem_append.mp hc2 with hl2 | hr2
      · exact h3 c1 hl1 c2 hl2 ha1 ha2 hname
      · have he : c2 = Client.mk cid "" false now now none false "" := by simpa using hr2
        rw [he] at ha2
        exact absurd ha2 (by simp)
    · have he : c1 = Client.mk cid "" false now now none false "" := by simpa using hr1
      rw [he] at ha1
      exact absurd ha1 (by simp)

theorem step_ok {timeout : Int} {st st2 : ServerState} (hs : Step timeout st st2)
    (h : ClientsOk st.clients) : ClientsOk st2.clients := by
  cases hs with
  | accept cid now hfresh => exact acceptConn_ok st cid now h hfresh
  | rx cid line now => exact rx_line_ok st cid line now h
  | tickEv now => exact tick_ok timeout now st h
  | drop cid reason => exact stateOk_disconnect st cid reason h

/-- Every reachable registry satisfies the invariant. -/
theorem reachable_clientsOk (timeout : Int) (pw : Option String) (mc : Nat)
    (st : ServerState) (h : Reachable timeout pw mc st) : ClientsOk st.clients := by
  induction h with
  | init =>
    exact ⟨List.nodup_nil, fun c hc => absurd hc (List.not_mem_nil c),
      fun c1 hc1 => absurd hc1 (List.not_mem_nil c1)⟩
  | step hr hstep ih => exact step_ok hstep ih

/- ---------------- base64 token shape ---------------- -/

theorem b64Char_ne_pad : ∀ n < 64, ¬(b64Char n = '=') := by decide

theorem b64_structure : ∀ (l : List Nat), (∀ x ∈ l, x < 256) → l.length % 3 = 1 →
    ∃ cs : List Char, b64EncodeAux l = cs ++ ['=', '='] ∧
      cs.length = l.length / 3 * 4 + 2 ∧ ∀ c ∈ cs, ¬(c = '=')
  | [] => by
    intro _ h
    simp at h
  | [a] => by
    intro hb _
    refine ⟨[b64Char (a / 4), b64Char (a % 4 * 16)], rfl, by simp, ?_⟩
    intro c hc
    have ha : a < 256 := hb a (by simp)
    rcases List.mem_cons.mp hc with rfl | hc2
    · exact b64Char_ne_pad _ (by omega)
    rcases List.mem_cons.mp hc2 with rfl | hc3
    · exact b64Char_ne_pad _ (by omega)
    · simp at hc3
  | [a, b] => by
    intro _ h
    simp at h
  | a :: b :: c :: rest => by
    intro hb hlen
    have hrest : rest.length % 3 = 1 := by
      simp [List.length_cons] at hlen
      omega
    obtain ⟨cs, hcs, hlen2, hne⟩ := b64_structure rest (fun x hx => hb x (by simp [hx])) hrest
    have ha : a < 256 := hb a (by simp)
    have hbb : b < 256 := hb b (by simp)
    have hcc : c < 256 := hb c (by simp)
    refine ⟨b64Char (a / 4) :: b64Char (a % 4 * 16 + b / 16) ::
      b64Char (b % 16 * 4 + c / 64) :: b64Char (c % 64) :: cs, ?_, ?_, ?_⟩
    · simp [b64EncodeAux, hcs]
    · simp [List.length_cons, hlen2]
      omega
    · intro x hx
      simp only [List.mem_cons] at hx
      rcases hx with rfl | rfl | rfl | rfl | hx
      · exact b64Char_ne_pad _ (by omega)
      · exact b64Char_ne_pad _ (by omega)
      · exact b64Char_ne_pad _ (by omega)
      · exact b64Char_ne_pad _ (by omega)
      · exact hne x hx

theorem dropWhile_of_all_false (p : Char → Bool) (l : List Char)
    (h : ∀ x ∈ l, p x = false) : l.dropWhile p = l := by
  cases l with
  | nil => rfl
  | cons a l =>
    rw [List.dropWhile_cons, h a (List.mem_cons_self a l)]
    simp

/-- The generated token is always exactly 22 characters long. -/
theorem gen_base64_22_length (bytes : List Nat) (hlen : bytes.length = 16)
    (hb : ∀ x ∈ bytes, x < 256) : (gen_base64_22 bytes).length = 22 := by
  obtain ⟨cs, hcs, hlen2, hne⟩ := b64_structure bytes hb (by omega)
  unfold gen_base64_22
  rw [hcs]
  have h1 : (cs ++ ['=', '=']).reverse = '=' :: '=' :: cs.reverse := by simp
  rw [h1]
  have h2 : List.dropWhile (· = '=') ('=' :: '=' :: cs.reverse)
      = List.dropWhile (· = '=') cs.reverse := by
    simp [List.dropWhile_cons]
  rw [h2, dropWhile_of_all_false _ _ (fun x hx => by
    have := hne x (List.mem_reverse.mp hx)
    simpa using this)]
  rw [List.reverse_reverse]
  have h3 : (String.mk cs).length = cs.length := rfl
  rw [h3, hlen2, hlen]

/- ---------------- predicate-transfer helpers ---------------- -/

theorem find?_map_pres (l : List Client) (g : Client → Client) (p : Client → Bool)
    (hg : ∀ c, p (g c) = p c) : (l.map g).find? p = (l.find? p).map g := by
  induction l with
  | nil => rfl
  | cons c l ih =>
    by_cases h : p c = true
    · have h2 : p (g c) = true := by rw [hg]; exact h
      simp [List.find?_cons, h, h2]
    · have h1 : p c = false := Bool.eq_false_iff.mpr h
      have h2 : p (g c) = false := by rw [hg, h1]
      simp [List.find?_cons, h1, h2, ih]

theorem any_congr_mem {α : Type} (l : List α) (p q : α → Bool) (h : ∀ a ∈ l, p a = q a) :
    l.any p = l.any q := by
  induction l with
  | nil => rfl
  | cons a l ih =>
    simp only [List.any_cons]
    rw [h a (List.mem_cons_self a l), ih (fun x hx => h x (List.mem_cons_of_mem a hx))]

@[simp] theorem clearPending_cid (c : Client) : (clearPending c).cid = c.cid := rfl

@[simp] theorem clearPending_charName (c : Client) : (clearPending c).charName = c.charName := rfl

@[simp] theorem clearPending_authorized (c : Client) :
    (clearPending c).authorized = c.authorized := rfl

@[simp] theorem clearPending_localEcho (c : Client) :
    (clearPending c).localEcho = c.localEcho := rfl

@[simp] theorem clearPending_chanList (c : Client) : (clearPending c).chanList = c.chanList := rfl

@[simp] theorem clearPending_pending (c : Client) :
    (clearPending c).pendingMsgType = none := rfl

theorem rosterLine_clients_congr {st st2 : ServerState} (h : st.clients = st2.clients) :
    rosterLine st = rosterLine st2 := by
  unfold rosterLine allNamesSorted
  rw [h]

/- ---------------- claim C5 ---------------- -/

/-- C5: the claim is right and the code is wrong.  src/server.py 516-517 applies
lstrip() to the login remainder before testing startswith("\\t"); lstrip strips
tabs, so the test can never succeed and the remainder is always discarded.  On
the failing input "LOGIN=Alice;\\tLOCALECHO 1" the appended LOCALECHO command is
dropped: localEcho stays false and no "-- Local Echo: ON" reply is sent, while
the code comment and the spec say the remainder is dispatched. -/
theorem C5_login_remainder_dead :
    (∀ r : String, strStartsWith (pyLStrip r) "\t" = false)
    ∧ (findClient (rx_line (ServerState.mk [Client.mk 0 "" false 0 0 none false ""]
        none 250 [] [] []) 0 "LOGIN=Alice;\tLOCALECHO 1" 5) 0).map (fun c => c.localEcho)
        = some false
    ∧ (0, "-- Local Echo: ON") ∉ (rx_line (ServerState.mk
        [Client.mk 0 "" false 0 0 none false ""] none 250 [] [] [])
        0 "LOGIN=Alice;\tLOCALECHO 1" 5).out :=
  ⟨lstrip_never_tab, by decide, by decide⟩

/- ---------------- claim C1 ---------------- -/

/-- The pending latch survives any tab-prefixed command line whose token is not
an arm command and not DISCONNECT (src/server.py 404-406 dispatch commands
before the pendingMsgType check ever runs). -/
theorem handleCommand_pending (st : ServerState) (cid : Nat) (cmd : String) (now : Int)
    (hnot : cmdToken cmd ∉ (["NBMSG", "MSGALL", "TELL", "CHANNELS", "BCI",
      "DISCONNECT"] : List String)) :
    (findClient (handleCommand st cid cmd now) cid).map (fun c => c.pendingMsgType)
      = (findClient st cid).map (fun c => c.pendingMsgType) := by
  unfold handleCommand
  by_cases h1 : (cmd == "") = true
  · rw [if_pos h1]
  · rw [if_neg h1]
    by_cases h2 : (cmdToken cmd == "PONG") = true
    · rw [if_pos h2,
        findClient_update_self st cid (fun c => { c with lastPongAt := now }) (fun c => rfl)]
      cases findClient st cid <;> rfl
    rw [if_neg h2]
    by_cases h3 : (cmdToken cmd == "NAMES") = true
    · rw [if_pos h3]
      rfl
    rw [if_neg h3]
    by_cases h4 : (cmdToken cmd == "NBNAMES") = true
    · rw [if_pos h4]
      rfl
    rw [if_neg h4]
    by_cases h5 : (cmdToken cmd == "DISCONNECT") = true
    · exact absurd (by rw [show cmdToken cmd = "DISCONNECT" by simpa using h5]; simp) hnot
    rw [if_neg h5]
    by_cases h6 : (cmdToken cmd == "LOCALECHO") = true
    · rw [if_pos h6]
      have he : findClient (txLine (updateClient st cid
          (fun c => { c with localEcho := localEchoVal (cmdArg cmd) })) cid
          ("-- Local Echo: " ++ (if localEchoVal (cmdArg cmd) then "ON" else "OFF"))) cid
          = findClient (updateClient st cid
            (fun c => { c with localEcho := localEchoVal (cmdArg cmd) })) cid := rfl
      rw [he, findClient_update_self st cid
        (fun c => { c with localEcho := localEchoVal (cmdArg cmd) }) (fun c => rfl)]
      cases findClient st cid <;> rfl
    rw [if_neg h6]
    by_cases h7 : (cmdToken cmd == "NBMSG") = true
    · exact absurd (by rw [show cmdToken cmd = "NBMSG" by simpa using h7]; simp) hnot
    rw [if_neg h7]
    by_cases h8 : (cmdToken cmd == "MSGALL") = true
    · exact absurd (by rw [show cmdToken cmd = "MSGALL" by simpa using h8]; simp) hnot
    rw [if_neg h8]
    by_cases h9 : (cmdToken cmd == "TELL") = true
    · exact absurd (by rw [show cmdToken cmd = "TELL" by simpa using h9]; simp) hnot
    rw [if_neg h9]
    by_cases h10 : (cmdToken cmd == "CHANNELS") = true
    · exact absurd (by rw [show cmdToken cmd = "CHANNELS" by simpa using h10]; simp) hnot
    rw [if_neg h10]
    by_cases h11 : (cmdToken cmd == "BCI") = true
    · exact absurd (by rw [show cmdToken cmd = "BCI" by simpa using h11]; simp) hnot
    rw [if_neg h11]
    rfl

/-- C1 counterexample: with TELL armed, two successive tab-prefixed PONG command
lines leave the latch armed, so the "very next line consumes the latch
regardless of syntax" claim is false and the type does persist across two
received lines. -/
theorem C1_counterexample :
    (findClient (rx_line (rx_line (rx_line
        (ServerState.mk [Client.mk 0 "Alice" true 0 0 none false ""] none 250 [] [] [])
        0 "\tTELL" 4) 0 "\tPONG" 5) 0 "" 6) 0).map (fun c => c.pendingMsgType)
      = some (some msgTypeTell) := by decide

/-- C1 (amended): after arming, the latch is consumed and cleared by the next
plain line (non-empty, not tab-prefixed) whatever its content; an empty line
leaves the whole state unchanged, and a tab-prefixed command line whose token is
neither an arm command nor DISCONNECT leaves the latch untouched. -/
theorem C1_pending_latch (st : ServerState) (cid : Nat) (cli : Client) (line : String)
    (now : Int) (t : Nat)
    (hf : findClient st cid = some cli)
    (ha : cli.authorized = true)
    (hp : cli.pendingMsgType = some t) :
    (¬(strStartsWith line "\t" = true) → ¬(line = "") →
      (findClient (rx_line st cid line now) cid).map (fun c => c.pendingMsgType) = some none)
    ∧ (line = "" → rx_line st cid line now = st)
    ∧ (strStartsWith line "\t" = true →
        cmdToken (pyStrip (strDropChars line 1)) ∉ (["NBMSG", "MSGALL", "TELL", "CHANNELS",
          "BCI", "DISCONNECT"] : List String) →
        (findClient (rx_line st cid line now) cid).map (fun c => c.pendingMsgType)
          = some (some t)) := by
  have hna : ¬((!cli.authorized) = true) := by simp [ha]
  refine ⟨?_, ?_, ?_⟩
  · intro htab hne
    unfold rx_line
    rw [hf]
    dsimp only
    rw [if_neg hna, if_neg htab, if_neg (by simpa using hne), hp]
    dsimp only
    by_cases c1 : (t == msgTypeNbmsg) = true
    · rw [if_pos c1]
      have he : findClient (broadcastNbpkt (updateClient st cid clearPending) cli line) cid
          = findClient (updateClient st cid clearPending) cid := by
        unfold findClient
        rw [broadcastNbpkt_clients]
      rw [he, findClient_update_self st cid clearPending (fun c => rfl), hf]
      rfl
    rw [if_neg c1]
    by_cases c2 : (t == msgTypeMsgAll) = true
    · rw [if_pos c2]
      have he : findClient (broadcastMsgAll (updateClient st cid clearPending) cli line) cid
          = findClient (updateClient st cid clearPending) cid := by
        unfold findClient
        rw [broadcastMsgAll_clients]
      rw [he, findClient_update_self st cid clearPending (fun c => rfl), hf]
      rfl
    rw [if_neg c2]
    by_cases c3 : (t == msgTypeTell) = true
    · rw [if_pos c3]
      have he : findClient (routeTell (updateClient st cid clearPending) cli
          (pySplitOnce ' ' line).1 (unescape_text (((pySplitOnce ' ' line).2).getD ""))) cid
          = findClient (updateClient st cid clearPending) cid := by
        unfold findClient
        rw [routeTell_clients]
      rw [he, findClient_update_self st cid clearPending (fun c => rfl), hf]
      rfl
    rw [if_neg c3]
    by_cases c4 : (t == msgTypeChannels) = true
    · rw [if_pos c4]
      have he : findClient (txLine (updateClient (updateClient st cid clearPending) cid
            (fun c => { c with chanList := pyStrip line })) cid
            (cli.charName ++ " joined channels " ++ pyStrip line ++ ".")) cid
          = findClient (updateClient (updateClient st cid clearPending) cid
            (fun c => { c with chanList := pyStrip line })) cid := rfl
      rw [he, findClient_update_self (updateClient st cid clearPending) cid
          (fun c => { c with chanList := pyStrip line }) (fun c => rfl),
        findClient_update_self st cid clearPending (fun c => rfl), hf]
      rfl
    rw [if_neg c4]
    by_cases c5 : (t == msgTypeBci) = true
    · rw [if_pos c5]
      have he : findClient (handleBci (updateClient st cid clearPending) cli
          (pySplitOnce ' ' line).1 (unescape_text (((pySplitOnce ' ' line).2).getD ""))) cid
          = findClient (updateClient st cid clearPending) cid := by
        unfold findClient
        rw [handleBci_clients]
      rw [he, findClient_update_self st cid clearPending (fun c => rfl), hf]
      rfl
    rw [if_neg c5]
    rw [findClient_update_self st cid clearPending (fun c => rfl), hf]
    rfl
  · intro h0
    subst h0
    unfold rx_line
    rw [hf]
    dsimp only
    rw [if_neg hna, if_neg (by decide), if_pos (by decide)]
  · intro htab hnot
    unfold rx_line
    rw [hf]
    dsimp only
    rw [if_neg hna, if_pos htab, handleCommand_pending st cid _ now hnot, hf]
    simp [hp]

/-- C1 witness: applying the amended latch theorem at a concrete state. -/
theorem C1_witness :
    (findClient (rx_line
        (ServerState.mk [Client.mk 0 "Alice" true 0 0 (some msgTypeTell) false ""]
          none 250 [] [] []) 0 "whatever payload" 5) 0).map (fun c => c.pendingMsgType)
      = some none :=
  (C1_pending_latch
    (ServerState.mk [Client.mk 0 "Alice" true 0 0 (some msgTypeTell) false ""] none 250 [] [] [])
    0 (Client.mk 0 "Alice" true 0 0 (some msgTypeTell) false "") "whatever payload" 5
    msgTypeTell (by decide) (by decide) (by decide)).1 (by decide) (by decide)

/- ---------------- claim C10 ---------------- -/

/-- C10 counterexample: "Alice" (cid 0) and "ALICE" (cid 1) can both be
authorized, since duplicate eviction compares exact-case.  When ALICE sends the
armed TELL payload "alice hi", the direct-name loop delivers to the first
case-insensitive matcher in registry order — Alice (cid 0), not the sender —
so a self-named target is not always "delivered back to the sender itself". -/
theorem C10_counterexample :
    (rx_line (rx_line (ServerState.mk [Client.mk 0 "Alice" true 0 0 none false "",
        Client.mk 1 "ALICE" true 0 0 none false ""] none 250 [] [] [])
      1 "\tTELL" 4) 1 "alice hi" 5).out = [(0, "[ALICE] hi")] := by decide

/-- C10 (amended): TELL/BCI name resolution delivers to the first
case-insensitive matcher in registry order; in particular, when the sender is
the only authorized session whose name matches the target case-insensitively,
the single delivered line goes back to the sender itself even with localEcho
off — the localEcho exclusion exists only on the channel-delivery path. -/
theorem C10_self_target (st : ServerState) (src : Client) (target msg : String)
    (hsrc : src ∈ st.clients) (ha : src.authorized = true)
    (hmatch : (strLower src.charName == strLower target) = true)
    (honly : ∀ d ∈ st.clients,
      (d.authorized && strLower d.charName == strLower target) = true → d = src)
    (hecho : src.localEcho = false)
    (ht : ¬(target = "")) :
    routeTell st src target msg = txLine st src.cid ("[" ++ src.charName ++ "] " ++ msg)
    ∧ handleBci st src target msg
        = txLine st src.cid ("\x7b" ++ src.charName ++ "\x7d " ++ msg) := by
  cases hfind : st.clients.find?
      (fun d => d.authorized && strLower d.charName == strLower target) with
  | none =>
    exfalso
    exact List.find?_eq_none.mp hfind src hsrc (by simp [ha, hmatch])
  | some e =>
    have hpe : (e.authorized && strLower e.charName == strLower target) = true := by
      simpa using List.find?_some hfind
    have he : e = src := honly e (List.mem_of_find?_eq_some hfind) hpe
    subst he
    constructor
    · unfold routeTell
      rw [if_neg (by simpa using ht), hfind]
    · unfold handleBci
      rw [if_neg (by simpa using ht), hfind]

/-- C10 witness: a lone authorized Alice with localEcho off telling "alice"
receives the line herself. -/
theorem C10_witness :
    routeTell (ServerState.mk [Client.mk 0 "Alice" true 0 0 none false ""] none 250 [] [] [])
        (Client.mk 0 "Alice" true 0 0 none false "") "alice" "hi"
      = txLine (ServerState.mk [Client.mk 0 "Alice" true 0 0 none false ""] none 250 [] [] [])
        (Client.mk 0 "Alice" true 0 0 none false "").cid
        ("[" ++ (Client.mk 0 "Alice" true 0 0 none false "").charName ++ "] " ++ "hi")
    ∧ handleBci (ServerState.mk [Client.mk 0 "Alice" true 0 0 none false ""] none 250 [] [] [])
        (Client.mk 0 "Alice" true 0 0 none false "") "alice" "hi"
      = txLine (ServerState.mk [Client.mk 0 "Alice" true 0 0 none false ""] none 250 [] [] [])
        (Client.mk 0 "Alice" true 0 0 none false "").cid
        ("\x7b" ++ (Client.mk 0 "Alice" true 0 0 none false "").charName ++ "\x7d " ++ "hi") :=
  C10_self_target _ _ "alice" "hi" (by decide) (by decide) (by decide) (by decide)
    (by decide) (by decide)

/- ---------------- claim C9 ---------------- -/

/-- C9 counterexample: base64.b64encode uses the standard alphabet, which
contains characters such as plus and slash that are not URL-safe.  With first
urandom byte 251 the generated token starts with a plus sign, so the generator
does not produce URL-safe tokens. -/
theorem C9_counterexample :
    (resolve_instance_password (fun _ => 251 :: List.replicate 15 0) (some "auto") none
      initPwProcess).1.map urlSafeToken_spec = some false := by decide

/-- C9 (amended): with the master policy "auto", the first resolution generates
one standard-base64 (not URL-safe), exactly-22-character token from the first
urandom draw, caches it and logs it once; every later resolution in the same
process returns that identical cached token and leaves the state unchanged; an
instance-scoped "auto" policy generates a fresh, independent token from the
next urandom draw and neither caches it nor touches the master cache. -/
theorem C9_auto_password (entropy : Nat → List Nat)
    (hlen : ∀ k, (entropy k).length = 16)
    (hbytes : ∀ k, ∀ x ∈ entropy k, x < 256)
    (masterRaw instRaw instRaw2 : Option String)
    (hm : parse_pw_policy masterRaw = PwMode.autoMode)
    (hi : parse_pw_policy instRaw = PwMode.noneMode)
    (hi2 : parse_pw_policy instRaw2 = PwMode.noneMode) :
    (resolve_instance_password entropy masterRaw instRaw initPwProcess
        = (some (gen_base64_22 (entropy 0)),
           PwProcess.mk (some (gen_base64_22 (entropy 0))) 1
             ["Generated master password (auto): " ++ gen_base64_22 (entropy 0)]))
    ∧ (gen_base64_22 (entropy 0)).length = 22
    ∧ (∀ ps : PwProcess, ps.cache = some (gen_base64_22 (entropy 0)) →
        resolve_instance_password entropy masterRaw instRaw2 ps
          = (some (gen_base64_22 (entropy 0)), ps))
    ∧ (∀ (ps : PwProcess) (iRaw : Option String), parse_pw_policy iRaw = PwMode.autoMode →
        (resolve_instance_password entropy masterRaw iRaw ps).1
            = some (gen_base64_22 (entropy ps.urandomCalls))
          ∧ ((resolve_instance_password entropy masterRaw iRaw ps).2).cache = ps.cache) := by
  refine ⟨?_, ?_, ?_, ?_⟩
  · unfold resolve_instance_password
    rw [hi]
    dsimp only
    unfold masterEffective
    rw [hm]
    rfl
  · exact gen_base64_22_length (entropy 0) (hlen 0) (hbytes 0)
  · intro ps hcache
    unfold resolve_instance_password
    rw [hi2]
    dsimp only
    unfold masterEffective
    rw [hm]
    dsimp only
    rw [hcache]
  · intro ps iRaw hauto
    unfold resolve_instance_password
    rw [hauto]
    exact ⟨rfl, rfl⟩

/-- C9 witness: the amended auto-password behaviour at a concrete entropy source. -/
theorem C9_witness :
    resolve_instance_password (fun _ => List.range 16) (some "auto") none initPwProcess
      = (some (gen_base64_22 ((fun _ : Nat => List.range 16) 0)),
         PwProcess.mk (some (gen_base64_22 ((fun _ : Nat => List.range 16) 0))) 1
           ["Generated master password (auto): "
             ++ gen_base64_22 ((fun _ : Nat => List.range 16) 0)]) :=
  (C9_auto_password (fun _ => List.range 16)
    (by intro k; show (List.range 16).length = 16; decide)
    (by intro k; show ∀ x ∈ List.range 16, x < 256; decide)
    (some "auto") none none (by decide) (by decide) (by decide)).1

/- ---------------- claim C7 ---------------- -/

/-- C7: an armed MSGALL payload goes through _broadcastMsgAll; the payload is
trimmed and space-collapsed, a leading "//" selects the personalized
per-recipient line and otherwise one shared line is sent, recipients are all
authorized sessions minus the sender-unless-localEcho, and the sender is a
recipient of its own broadcast exactly when its localEcho flag is on. -/
theorem C7_msgall_payload (st : ServerState) (cid : Nat) (cli : Client) (line : String)
    (now : Int)
    (hf : findClient st cid = some cli) (ha : cli.authorized = true)
    (hp : cli.pendingMsgType = some msgTypeMsgAll)
    (htab : ¬(strStartsWith line "\t" = true)) (hne : ¬(line = "")) :
    rx_line st cid line now = broadcastMsgAll (updateClient st cid clearPending) cli line
    ∧ ∀ (st2 : ServerState) (src : Client) (msg : String), src ∈ st2.clients →
        src.authorized = true →
        (broadcastMsgAll st2 src msg
          = { st2 with out := st2.out ++ (st2.clients.filter (msgAllRecipOk src)).map (fun d =>
              (d.cid, if strStartsWith (collapse_spaces (pyStrip msg)) "//" then
                "<" ++ src.charName ++ "> " ++ d.charName ++ " " ++ collapse_spaces (pyStrip msg)
              else "<" ++ src.charName ++ "> " ++ collapse_spaces (pyStrip msg))) })
        ∧ (src ∈ st2.clients.filter (msgAllRecipOk src) ↔ src.localEcho = true) := by
  constructor
  · unfold rx_line
    rw [hf]
    dsimp only
    rw [if_neg (by simp [ha]), if_neg htab, if_neg (by simpa using hne), hp]
    dsimp only
    rw [if_neg (by decide), if_pos (by decide)]
  · intro st2 src msg hsrc ha2
    refine ⟨broadcastMsgAll_eq st2 src msg, ?_⟩
    simp [List.mem_filter, msgAllRecipOk, hsrc, ha2]

/-- C7 witness: the spec scenario — Alice (localEcho off) broadcasts "hello";
the sender is not among its own recipients. -/
theorem C7_witness :
    rx_line (ServerState.mk [Client.mk 0 "Alice" true 0 0 (some msgTypeMsgAll) false "",
        Client.mk 1 "Bob" true 0 0 none false ""] none 250 [] [] []) 0 "hello" 5
      = broadcastMsgAll (updateClient (ServerState.mk
          [Client.mk 0 "Alice" true 0 0 (some msgTypeMsgAll) false "",
           Client.mk 1 "Bob" true 0 0 none false ""] none 250 [] [] []) 0 clearPending)
        (Client.mk 0 "Alice" true 0 0 (some msgTypeMsgAll) false "") "hello"
    ∧ (Client.mk 0 "Alice" true 0 0 (some msgTypeMsgAll) false "" ∈
        (ServerState.mk [Client.mk 0 "Alice" true 0 0 (some msgTypeMsgAll) false "",
          Client.mk 1 "Bob" true 0 0 none false ""] none 250 [] [] []).clients.filter
          (msgAllRecipOk (Client.mk 0 "Alice" true 0 0 (some msgTypeMsgAll) false ""))
        ↔ (Client.mk 0 "Alice" true 0 0 (some msgTypeMsgAll) false "").localEcho = true) := by
  have h := C7_msgall_payload (ServerState.mk
      [Client.mk 0 "Alice" true 0 0 (some msgTypeMsgAll) false "",
       Client.mk 1 "Bob" true 0 0 none false ""] none 250 [] [] [])
    0 (Client.mk 0 "Alice" true 0 0 (some msgTypeMsgAll) false "") "hello" 5
    (by decide) (by decide) (by decide) (by decide) (by decide)
  exact ⟨h.1, (h.2 (ServerState.mk [Client.mk 0 "Alice" true 0 0 (some msgTypeMsgAll) false "",
    Client.mk 1 "Bob" true 0 0 none false ""] none 250 [] [] [])
    (Client.mk 0 "Alice" true 0 0 (some msgTypeMsgAll) false "") "hello"
    (by decide) (by decide)).2⟩

/- ---------------- claim C8 ---------------- -/

@[simp] theorem tickPing_disconnects (now : Int) (st : ServerState) (cid : Nat) (cli : Client) :
    (tickPing now st cid cli).disconnects = st.disconnects := by
  unfold tickPing
  split <;> simp

theorem tickPing_findClient (now : Int) (st : ServerState) (cid : Nat) (cli : Client)
    (hf : findClient st cid = some cli) :
    ∃ x, findClient (tickPing now st cid cli) cid = some x := by
  unfold tickPing
  split
  · have he : findClient (txLine st cid "\tPING") cid = findClient st cid := rfl
    rw [findClient_update_self (txLine st cid "\tPING") cid
      (fun c => { c with lastPingAt := now }) (fun c => rfl), he, hf]
    exact ⟨_, rfl⟩
  · exact ⟨cli, hf⟩

theorem findClient_disconnect_self (st : ServerState) (cid : Nat) (r : String) :
    findClient (disconnect st cid r) cid = none := by
  unfold findClient
  rw [disconnect_clients]
  apply List.find?_eq_none.mpr
  intro x hx
  have h2 := (List.mem_filter.mp hx).2
  simp at h2 ⊢
  exact h2

/-- C8: the keepalive tick folds the per-client step over a snapshot of the
registry; unauthorized sessions are untouched; for an authorized session a PING
is sent and the ping clock reset exactly when 30 or more seconds passed since
the last PING; with a positive timeout T the session is disconnected with
reason "timeout > Ts without PONG" once T or more seconds passed without a
PONG; with T = 0 the session is never disconnected by the tick, and once 75 or
more seconds passed without a PONG the pong clock is merely advanced to now. -/
theorem C8_keepalive (timeout now : Int) (st : ServerState) (cid : Nat) (cli : Client)
    (hf : findClient st cid = some cli) :
    (tick timeout now st = (st.clients.map (fun c => c.cid)).foldl (tickOne timeout now) st)
    ∧ (cli.authorized = false → tickOne timeout now st cid = st)
    ∧ (cli.authorized = true →
        ((pingSeconds ≤ now - cli.lastPingAt →
            tickPing now st cid cli
              = updateClient (txLine st cid "\tPING") cid (fun c => { c with lastPingAt := now }))
          ∧ (¬(pingSeconds ≤ now - cli.lastPingAt) → tickPing now st cid cli = st))
        ∧ (timeout > 0 → timeout ≤ now - cli.lastPongAt →
            tickOne timeout now st cid
              = disconnect (tickPing now st cid cli) cid
                  ("timeout > " ++ toString timeout ++ "s without PONG")
            ∧ findClient (tickOne timeout now st cid) cid = none
            ∧ (tickOne timeout now st cid).disconnects
                = st.disconnects ++ [(cid, "timeout > " ++ toString timeout ++ "s without PONG")])
        ∧ (timeout > 0 → ¬(timeout ≤ now - cli.lastPongAt) →
            tickOne timeout now st cid = tickPing now st cid cli)
        ∧ (timeout = 0 →
            (tickOne timeout now st cid).disconnects = st.disconnects
            ∧ (findClient (tickOne timeout now st cid) cid).isSome = true
            ∧ (pingTimeoutSeconds ≤ now - cli.lastPongAt →
                tickOne timeout now st cid
                  = updateClient (tickPing now st cid cli) cid
                      (fun c => { c with lastPongAt := now })))) := by
  refine ⟨rfl, ?_, ?_⟩
  · intro ha0
    unfold tickOne
    rw [hf]
    dsimp only
    rw [if_pos (by simp [ha0])]
  · intro ha
    have hna : ¬((!cli.authorized) = true) := by simp [ha]
    refine ⟨⟨?_, ?_⟩, ?_, ?_, ?_⟩
    · intro hping
      unfold tickPing
      rw [if_pos (by omega)]
    · intro hping
      unfold tickPing
      rw [if_neg (by omega)]
    · intro ht hpong
      have heq : tickOne timeout now st cid
          = disconnect (tickPing now st cid cli) cid
              ("timeout > " ++ toString timeout ++ "s without PONG") := by
        unfold tickOne
        rw [hf]
        dsimp only
        rw [if_neg hna, if_pos ht, if_pos (by omega)]
      refine ⟨heq, ?_, ?_⟩
      · rw [heq]
        exact findClient_disconnect_self _ _ _
      · rw [heq]
        obtain ⟨x, hx⟩ := tickPing_findClient now st cid cli hf
        rw [disconnect_disconnects_some _ _ x _ hx, tickPing_disconnects]
    · intro ht hpong
      unfold tickOne
      rw [hf]
      dsimp only
      rw [if_neg hna, if_pos ht, if_neg (by omega)]
    · intro ht0
      have heq : tickOne timeout now st cid
          = (if cli.lastPongAt + pingTimeoutSeconds ≤ now then
              updateClient (tickPing now st cid cli) cid (fun c => { c with lastPongAt := now })
            else tickPing now st cid cli) := by
        unfold tickOne
        rw [hf]
        dsimp only
        rw [if_neg hna, if_neg (by omega)]
      by_cases h75 : cli.lastPongAt + pingTimeoutSeconds ≤ now
      · rw [heq, if_pos h75]
        refine ⟨by simp, ?_, ?_⟩
        · rw [findClient_update_self (tickPing now st cid cli) cid
            (fun c => { c with lastPongAt := now }) (fun c => rfl)]
          obtain ⟨x, hx⟩ := tickPing_findClient now st cid cli hf
          rw [hx]
          rfl
        · intro _
          rfl
      · rw [heq, if_neg h75]
        refine ⟨by simp, ?_, ?_⟩
        · obtain ⟨x, hx⟩ := tickPing_findClient now st cid cli hf
          rw [hx]
          rfl
        · intro habs
          exact absurd (by omega : cli.lastPongAt + pingTimeoutSeconds ≤ now) h75

/-- C8 witness: a silent authorized client is disconnected at a 120 second
timeout, and the reason is recorded. -/
theorem C8_witness :
    tickOne 120 121 (ServerState.mk [Client.mk 0 "Alice" true 0 0 none false ""]
        none 250 [] [] []) 0
      = disconnect (tickPing 121 (ServerState.mk [Client.mk 0 "Alice" true 0 0 none false ""]
          none 250 [] [] []) 0 (Client.mk 0 "Alice" true 0 0 none false "")) 0
          ("timeout > " ++ toString (120 : Int) ++ "s without PONG")
    ∧ findClient (tickOne 120 121 (ServerState.mk [Client.mk 0 "Alice" true 0 0 none false ""]
        none 250 [] [] []) 0) 0 = none := by
  have h := ((C8_keepalive 120 121 (ServerState.mk
      [Client.mk 0 "Alice" true 0 0 none false ""] none 250 [] [] []) 0
    (Client.mk 0 "Alice" true 0 0 none false "") (by decide)).2.2 (by decide)).2.1
    (by decide) (by decide)
  exact ⟨h.1, h.2.1⟩

/- ---------------- claim C3 ---------------- -/

theorem find_cid_filter (l : List Client) (p : Client → Bool) (cid : Nat)
    (hl : ∀ c ∈ l, c.cid = cid → p c = true) :
    (l.filter p).find? (fun c => c.cid == cid) = l.find? (fun c => c.cid == cid) := by
  induction l with
  | nil => rfl
  | cons c l ih =>
    by_cases hc : (c.cid == cid) = true
    · have hp : p c = true := hl c (List.mem_cons_self c l) (by simpa using hc)
      rw [List.filter_cons_of_pos hp]
      simp [List.find?_cons, hc]
    · have hih := ih (fun x hx => hl x (List.mem_cons_of_mem c hx))
      by_cases hp : p c = true
      · rw [List.filter_cons_of_pos hp]
        simpa [List.find?_cons, hc] using hih
      · rw [List.filter_cons_of_neg (by simpa using hp)]
        simpa [List.find?_cons, hc] using hih

/-- After a successful login the newcomer session carries the stored name and
the authorized flag (src/server.py 499-503), surviving the same-name kick. -/
theorem loginSuccess_newcomer (st : ServerState) (cid : Nat) (cli : Client)
    (name rem : String) (now : Int)
    (hnd : (st.clients.map (fun c => c.cid)).Nodup)
    (hf : findClient st cid = some cli) :
    (findClient (loginSuccess st cid name rem now) cid).map (fun c => (c.authorized, c.charName))
      = some (true, name) := by
  have hcid : cli.cid = cid := by simpa using List.find?_some hf
  have hcl := loginSuccess_clients st cid name rem now hnd
  unfold findClient
  rw [hcl, updateClient_clients]
  rw [find_cid_filter _ _ cid ?hall]
  case hall =>
    intro c hc hcc
    obtain ⟨a, hma, rfl⟩ := List.mem_map.mp hc
    by_cases hx : a.cid = cid
    · have he : (if a.cid == cid then loginUpd name now a else a) = loginUpd name now a := by
        simp [hx]
      rw [he]
      simp [kickCond, hx]
    · have he : (if a.cid == cid then loginUpd name now a else a) = a := by simp [hx]
      rw [he] at hcc
      exact absurd hcc hx
  rw [find_cid_map st.clients _ (fun c => by by_cases hx : c.cid = cid <;> simp [hx]) cid]
  have hfind : st.clients.find? (fun c => c.cid == cid) = some cli := hf
  rw [hfind]
  simp [hcid]

/-- C3: with a configured password, a LOGIN line carrying a non-matching (or
missing) password disconnects the still-unauthorized session with reason
"bad password" and no other effect: no line is sent, nothing is logged, the
session is removed unauthorized.  With no configured password, the same LOGIN
line succeeds — the supplied password is never compared — and the session ends
up authorized under the supplied name. -/
theorem C3_password_gate (st : ServerState) (cid : Nat) (cli : Client) (line : String)
    (now : Int)
    (hnd : (st.clients.map (fun c => c.cid)).Nodup)
    (hf : findClient st cid = some cli)
    (hua : cli.authorized = false)
    (hlogin : strStartsWith line "LOGIN" = true)
    (hname : ¬(pyStrip (loginParse line).2.1 = "")) :
    (∀ pw, st.password = some pw → ¬((loginParse line).1 = some pw) →
      rx_line st cid line now
        = { st with clients := st.clients.filter (fun c => !(c.cid == cid)),
                    disconnects := st.disconnects ++ [(cid, "bad password")] })
    ∧ (st.password = none →
      (findClient (rx_line st cid line now) cid).map (fun c => (c.authorized, c.charName))
        = some (true, pyStrip (loginParse line).2.1)) := by
  have hna : (!cli.authorized) = true := by simp [hua]
  constructor
  · intro pw hpw hbad
    unfold rx_line
    rw [hf]
    dsimp only
    rw [if_pos hna]
    unfold handle_login_or_buffer
    rw [if_neg (by simp [hlogin]), if_neg (by simpa using hname)]
    conv_lhs => rw [hpw]
    dsimp only
    rw [if_pos (by simp [hbad])]
    exact disconnect_not_auth_eq st cid cli _ hf (by simp [hua])
  · intro hpw
    unfold rx_line
    rw [hf]
    dsimp only
    rw [if_pos hna]
    unfold handle_login_or_buffer
    rw [if_neg (by simp [hlogin]), if_neg (by simpa using hname), hpw]
    dsimp only
    exact loginSuccess_newcomer st cid cli _ _ now hnd hf

/-- C3 witness: a wrong password against a configured password disconnects with
"bad password" and no side effects; with no configured password the same line
logs the client in. -/
theorem C3_witness :
    rx_line (ServerState.mk [Client.mk 0 "" false 0 0 none false ""] (some "secret") 250 [] [] [])
        0 "LOGIN:wrong=Alice;" 5
      = { (ServerState.mk [Client.mk 0 "" false 0 0 none false ""] (some "secret") 250 [] [] [])
          with
          clients := (ServerState.mk [Client.mk 0 "" false 0 0 none false ""]
            (some "secret") 250 [] [] []).clients.filter (fun c => !(c.cid == 0)),
          disconnects := (ServerState.mk [Client.mk 0 "" false 0 0 none false ""]
            (some "secret") 250 [] [] []).disconnects ++ [(0, "bad password")] }
    ∧ (findClient (rx_line (ServerState.mk [Client.mk 0 "" false 0 0 none false ""]
        none 250 [] [] []) 0 "LOGIN:wrong=Alice;" 5) 0).map (fun c => (c.authorized, c.charName))
        = some (true, pyStrip (loginParse "LOGIN:wrong=Alice;").2.1) := by
  constructor
  · exact (C3_password_gate (ServerState.mk [Client.mk 0 "" false 0 0 none false ""]
      (some "secret") 250 [] [] []) 0 (Client.mk 0 "" false 0 0 none false "")
      "LOGIN:wrong=Alice;" 5 (by decide) (by decide) (by decide) (by decide) (by decide)).1
      "secret" (by decide) (by decide)
  · exact (C3_password_gate (ServerState.mk [Client.mk 0 "" false 0 0 none false ""]
      none 250 [] [] []) 0 (Client.mk 0 "" false 0 0 none false "")
      "LOGIN:wrong=Alice;" 5 (by decide) (by decide) (by decide) (by decide) (by decide)).2
      (by decide)

/- ---------------- claim C4 ---------------- -/

/-- C4 counterexample: a lone fresh connection logs in as Alice and receives
its own NBJOIN control line — the code marks the session authorized before the
NBJOIN broadcast, and _broadcastControl excludes nobody — contradicting the
claim that NBJOIN goes only to the other authorized sessions. -/
theorem C4_counterexample :
    (1, "\tNBJOIN=Alice") ∈ (rx_line (ServerState.mk [Client.mk 1 "" false 0 0 none false ""]
        none 250 [] [] []) 1 "LOGIN=Alice;" 5).out := by decide

/-- C4 (amended): on every successful login the server, in order, stores the
name, sets authorized, resets both keepalive clocks to now, evicts any other
session with the same exact name, broadcasts NBJOIN=<name> to EVERY authorized
session including the newly logged-in one, sends the private
NBCLIENTLIST=<roster> line to the new session, emits the join notice to the log
only, and finally broadcasts the refreshed NBCLIENTLIST to every authorized
session.  (Stated for collision-free logins so the kick pass is silent; the
eviction itself is the kick pass characterized by kickSameName_clients.) -/
theorem C4_login_effects (st : ServerState) (cid : Nat) (cli : Client) (name rem : String)
    (now : Int)
    (hf : findClient st cid = some cli)
    (hnocol : ∀ d ∈ st.clients, d.cid = cid ∨ ¬(d.authorized = true ∧ d.charName = name)) :
    loginSuccess st cid name rem now
      = { updateClient st cid (loginUpd name now) with
          out := st.out
            ++ ((updateClient st cid (loginUpd name now)).clients.filter
                (fun c => c.authorized)).map (fun c => (c.cid, "\tNBJOIN=" ++ name))
            ++ [(cid, "\tNBCLIENTLIST=" ++ rosterLine (updateClient st cid (loginUpd name now)))]
            ++ ((updateClient st cid (loginUpd name now)).clients.filter
                (fun c => c.authorized)).map (fun c =>
                  (c.cid, "\tNBCLIENTLIST=" ++ rosterLine (updateClient st cid (loginUpd name now)))),
          log := st.log ++ ["-- " ++ name ++ " has joined the server."] }
    ∧ cid ∈ ((updateClient st cid (loginUpd name now)).clients.filter
        (fun c => c.authorized)).map (fun c => c.cid) := by
  have hcli : cli ∈ st.clients := List.mem_of_find?_eq_some hf
  have hcid : cli.cid = cid := by simpa using List.find?_some hf
  have hnoop : kickSameName (updateClient st cid (loginUpd name now)) cid name
      = updateClient st cid (loginUpd name now) := by
    apply kickSameName_noop
    intro d hd
    rw [updateClient_clients] at hd
    obtain ⟨a, ha2, rfl⟩ := List.mem_map.mp hd
    by_cases hx : a.cid = cid
    · have he : (if a.cid == cid then loginUpd name now a else a) = loginUpd name now a := by
        simp [hx]
      rw [he]
      simp [kickCond, hx]
    · have he : (if a.cid == cid then loginUpd name now a else a) = a := by simp [hx]
      rw [he]
      rcases hnocol a ha2 with h | h
      · exact absurd h hx
      · by_cases hau : a.authorized = true
        · have hne2 : ¬(a.charName = name) := fun hh => h ⟨hau, hh⟩
          simp [kickCond, hne2]
        · have hau2 : a.authorized = false := by simpa using hau
          simp [kickCond, hau2]
  constructor
  · simp only [loginSuccess]
    rw [hnoop]
    simp only [lstrip_never_tab, Bool.false_eq_true, if_false]
    rw [broadcastControl_eq]
    simp only [broadcastNbClientList_eq, broadcastSystem, logSystem, txLine]
    simp [rosterLine, allNamesSorted, List.append_assoc]
  · refine List.mem_map.mpr ⟨if cli.cid == cid then loginUpd name now cli else cli, ?_, ?_⟩
    · refine List.mem_filter.mpr ⟨?_, ?_⟩
      · rw [updateClient_clients]
        exact List.mem_map_of_mem _ hcli
      · simp [hcid]
    · simp [hcid]

/-- C4 witness: Bob is already connected; a new connection logs in as Alice;
the full effect list (including Alice receiving her own NBJOIN) is as the
amended claim states. -/
theorem C4_witness :
    loginSuccess (ServerState.mk [Client.mk 0 "Bob" true 0 0 none false "",
        Client.mk 1 "" false 0 0 none false ""] none 250 [] [] []) 1 "Alice" "" 9
      = { updateClient (ServerState.mk [Client.mk 0 "Bob" true 0 0 none false "",
            Client.mk 1 "" false 0 0 none false ""] none 250 [] [] []) 1 (loginUpd "Alice" 9) with
          out := (ServerState.mk [Client.mk 0 "Bob" true 0 0 none false "",
              Client.mk 1 "" false 0 0 none false ""] none 250 [] [] []).out
            ++ ((updateClient (ServerState.mk [Client.mk 0 "Bob" true 0 0 none false "",
                Client.mk 1 "" false 0 0 none false ""] none 250 [] [] []) 1
                (loginUpd "Alice" 9)).clients.filter (fun c => c.authorized)).map
                (fun c => (c.cid, "\tNBJOIN=" ++ "Alice"))
            ++ [(1, "\tNBCLIENTLIST=" ++ rosterLine (updateClient (ServerState.mk
                [Client.mk 0 "Bob" true 0 0 none false "",
                 Client.mk 1 "" false 0 0 none false ""] none 250 [] [] []) 1
                (loginUpd "Alice" 9)))]
            ++ ((updateClient (ServerState.mk [Client.mk 0 "Bob" true 0 0 none false "",
                Client.mk 1 "" false 0 0 none false ""] none 250 [] [] []) 1
                (loginUpd "Alice" 9)).clients.filter (fun c => c.authorized)).map
                (fun c => (c.cid, "\tNBCLIENTLIST=" ++ rosterLine (updateClient (ServerState.mk
                  [Client.mk 0 "Bob" true 0 0 none false "",
                   Client.mk 1 "" false 0 0 none false ""] none 250 [] [] []) 1
                  (loginUpd "Alice" 9)))),
          log := (ServerState.mk [Client.mk 0 "Bob" true 0 0 none false "",
              Client.mk 1 "" false 0 0 none false ""] none 250 [] [] []).log
            ++ ["-- " ++ "Alice" ++ " has joined the server."] }
    ∧ 1 ∈ ((updateClient (ServerState.mk [Client.mk 0 "Bob" true 0 0 none false "",
        Client.mk 1 "" false 0 0 none false ""] none 250 [] [] []) 1
        (loginUpd "Alice" 9)).clients.filter (fun c => c.authorized)).map (fun c => c.cid) :=
  C4_login_effects (ServerState.mk [Client.mk 0 "Bob" true 0 0 none false "",
      Client.mk 1 "" false 0 0 none false ""] none 250 [] [] []) 1
    (Client.mk 1 "" false 0 0 none false "") "Alice" "" 9 (by decide) (by decide)

/- ---------------- claim C6 ---------------- -/

/-- C6 counterexample: an armed TELL payload " hello" splits into an empty
target and message "hello"; _routeTell returns immediately on the empty target
(src/server.py 653-654), so no session receives anything and the sender gets no
"-- <target>: No such name." reply, contrary to the claim's fallback clause. -/
theorem C6_counterexample :
    (rx_line (rx_line (ServerState.mk [Client.mk 0 "Alice" true 0 0 none false ""]
        none 250 [] [] []) 0 "\tTELL" 4) 0 " hello" 5).out = [] := by decide

/-- C6 (amended): a TELL payload is split on the first space into target and
message, the message is backslash-unescaped, and, when the target is nonempty:
a case-insensitive name match delivers "[Sender] <message>" to exactly that one
session; with no name match, every authorized channel subscriber (the sender
only under localEcho) receives it; if nothing was delivered the sender gets
exactly one "-- <target>: No such name." line.  An empty target (payload
beginning with a space) is silently dropped: no delivery and no reply. -/
theorem C6_tell_payload (st : ServerState) (cid : Nat) (cli : Client) (line : String)
    (now : Int) (target msg : String)
    (hf : findClient st cid = some cli)
    (ha : cli.authorized = true)
    (hp : cli.pendingMsgType = some msgTypeTell)
    (htab : ¬(strStartsWith line "\t" = true))
    (hne : ¬(line = ""))
    (htarget : (pySplitOnce ' ' line).1 = target)
    (hmsg : unescape_text (((pySplitOnce ' ' line).2).getD "") = msg) :
    (rx_line st cid line now = routeTell (updateClient st cid clearPending) cli target msg)
    ∧ (target = "" → (rx_line st cid line now).out = st.out)
    ∧ (∀ dst, ¬(target = "") →
        st.clients.find? (fun d => d.authorized && strLower d.charName == strLower target)
          = some dst →
        (rx_line st cid line now).out
          = st.out ++ [(dst.cid, "[" ++ cli.charName ++ "] " ++ msg)])
    ∧ (¬(target = "") →
        st.clients.find? (fun d => d.authorized && strLower d.charName == strLower target)
          = none →
        st.clients.any (chanRecipOk cli target) = true →
        (rx_line st cid line now).out
          = st.out ++ (st.clients.filter (chanRecipOk cli target)).map
              (fun d => (d.cid, "[" ++ cli.charName ++ "] " ++ msg)))
    ∧ (¬(target = "") →
        st.clients.find? (fun d => d.authorized && strLower d.charName == strLower target)
          = none →
        st.clients.any (chanRecipOk cli target) = false →
        (rx_line st cid line now).out
          = st.out ++ [(cid, "-- " ++ target ++ ": No such name.")]) := by
  have hcid : cli.cid = cid := by simpa using List.find?_some hf
  have hgName : ∀ c : Client,
      ((fun d => d.authorized && strLower d.charName == strLower target)
        (if c.cid == cid then clearPending c else c))
      = ((fun d => d.authorized && strLower d.charName == strLower target) c) := by
    intro c
    by_cases hx : c.cid = cid <;> simp [hx]
  have hgChan : ∀ c ∈ st.clients,
      chanRecipOk cli target (if c.cid == cid then clearPending c else c)
        = chanRecipOk cli target c := by
    intro c _
    by_cases hx : c.cid = cid <;> simp [hx, chanRecipOk]
  have hlink : rx_line st cid line now = routeTell (updateClient st cid clearPending) cli
      target msg := by
    unfold rx_line
    rw [hf]
    dsimp only
    rw [if_neg (by simp [ha]), if_neg htab, if_neg (by simpa using hne), hp]
    dsimp only
    rw [if_neg (by decide), if_neg (by decide), if_pos (by decide), htarget, hmsg]
  refine ⟨hlink, ?_, ?_, ?_, ?_⟩
  · intro hT
    rw [hlink]
    unfold routeTell
    rw [if_pos (by simp [hT])]
    simp
  · intro dst hT hfound
    rw [hlink]
    unfold routeTell
    rw [if_neg (by simpa using hT)]
    have hfound2 : (updateClient st cid clearPending).clients.find?
        (fun d => d.authorized && strLower d.charName == strLower target)
        = some (if dst.cid == cid then clearPending dst else dst) := by
      rw [updateClient_clients, find?_map_pres st.clients _ _ hgName, hfound]
      rfl
    rw [hfound2]
    by_cases hx : dst.cid = cid <;> simp [txLine, hx]
  · intro hT hfound hany
    rw [hlink]
    unfold routeTell
    rw [if_neg (by simpa using hT)]
    have hfound2 : (updateClient st cid clearPending).clients.find?
        (fun d => d.authorized && strLower d.charName == strLower target) = none := by
      rw [updateClient_clients, find?_map_pres st.clients _ _ hgName, hfound]
      rfl
    rw [hfound2]
    have hany2 : (updateClient st cid clearPending).clients.any (chanRecipOk cli target)
        = true := by
      rw [updateClient_clients, List.any_map]
      exact (any_congr_mem st.clients _ _ (fun a haa => hgChan a haa)).trans hany
    rw [chanDeliver_eq, if_pos hany2]
    have hfilter : (updateClient st cid clearPending).clients.filter (chanRecipOk cli target)
        = (st.clients.filter (chanRecipOk cli target)).map
          (fun c => if c.cid == cid then clearPending c else c) := by
      rw [updateClient_clients, List.filter_map]
      congr 1
      exact List.filter_congr (fun a haa => hgChan a haa)
    simp only [updateClient_out, hfilter, List.map_map]
    have hmap : (st.clients.filter (chanRecipOk cli target)).map
        ((fun d => (d.cid, "[" ++ cli.charName ++ "] " ++ msg)) ∘ fun c =>
          if c.cid == cid then clearPending c else c)
        = (st.clients.filter (chanRecipOk cli target)).map
          (fun d => (d.cid, "[" ++ cli.charName ++ "] " ++ msg)) :=
      List.map_congr_left (fun a _ => by
        by_cases hx : a.cid = cid <;> simp [hx, Function.comp])
    rw [hmap]
  · intro hT hfound hany
    rw [hlink]
    unfold routeTell
    rw [if_neg (by simpa using hT)]
    have hfound2 : (updateClient st cid clearPending).clients.find?
        (fun d => d.authorized && strLower d.charName == strLower target) = none := by
      rw [updateClient_clients, find?_map_pres st.clients _ _ hgName, hfound]
      rfl
    rw [hfound2]
    have hany2 : (updateClient st cid clearPending).clients.any (chanRecipOk cli target)
        = false := by
      rw [updateClient_clients, List.any_map]
      exact (any_congr_mem st.clients _ _ (fun a haa => hgChan a haa)).trans hany
    rw [chanDeliver_eq, if_neg (by rw [hany2]; decide), txLine]
    simp [hcid]

/-- C6 witness: Alice tells Bob; exactly Bob receives "[Alice] hi". -/
theorem C6_witness :
    (rx_line (ServerState.mk [Client.mk 0 "Alice" true 0 0 (some msgTypeTell) false "",
        Client.mk 1 "Bob" true 0 0 none false ""] none 250 [] [] []) 0 "bob hi" 5).out
      = (ServerState.mk [Client.mk 0 "Alice" true 0 0 (some msgTypeTell) false "",
          Client.mk 1 "Bob" true 0 0 none false ""] none 250 [] [] []).out
        ++ [((Client.mk 1 "Bob" true 0 0 none false "").cid,
            "[" ++ (Client.mk 0 "Alice" true 0 0 (some msgTypeTell) false "").charName
              ++ "] " ++ "hi")] :=
  (C6_tell_payload (ServerState.mk [Client.mk 0 "Alice" true 0 0 (some msgTypeTell) false "",
      Client.mk 1 "Bob" true 0 0 none false ""] none 250 [] [] []) 0
    (Client.mk 0 "Alice" true 0 0 (some msgTypeTell) false "") "bob hi" 5 "bob" "hi"
    (by decide) (by decide) (by decide) (by decide) (by decide) (by decide)
    (by decide)).2.2.1 (Client.mk 1 "Bob" true 0 0 none false "") (by decide) (by decide)

/- ---------------- claim C2 ---------------- -/

/-- C2 counterexample: a colliding login authorizes the newcomer BEFORE
evicting the prior holder (src/server.py 501 and 507): the newcomer, already
authorized, receives the "\\tNBQUIT=Alice" broadcast of its own evicted
predecessor, which could not happen if eviction preceded authorization. -/
theorem C2_counterexample :
    (1, "\tNBQUIT=Alice") ∈ (rx_line (ServerState.mk
        [Client.mk 0 "Alice" true 0 0 none false "", Client.mk 1 "" false 0 0 none false ""]
        none 250 [] [] []) 1 "LOGIN=Alice;" 7).out := by decide

/-- C2 (amended): in every reachable state at most one authorized session holds
a given exact-case name; a colliding login evicts the prior holder within the
same login step — after the new session is marked authorized (the newcomer even
receives the NBQUIT broadcast of its predecessor) but before the join
broadcasts — so the new session ends the step authorized and the prior holder
is gone. -/
theorem C2_name_uniqueness (timeout : Int) (pw : Option String) (mc : Nat) (st : ServerState)
    (h : Reachable timeout pw mc st) :
    (∀ c1 ∈ st.clients, ∀ c2 ∈ st.clients, c1.authorized = true → c2.authorized = true →
        c1.charName = c2.charName → c1.cid = c2.cid)
    ∧ (∀ (cid : Nat) (cli : Client) (name rem : String) (now : Int),
        findClient st cid = some cli → ¬(name = "") →
        ((findClient (loginSuccess st cid name rem now) cid).map (fun c => c.authorized)
            = some true)
        ∧ ∀ d ∈ st.clients, d.cid ≠ cid → d.authorized = true → d.charName = name →
            findClient (loginSuccess st cid name rem now) d.cid = none) := by
  obtain ⟨h1, h2, h3⟩ := reachable_clientsOk timeout pw mc st h
  refine ⟨h3, ?_⟩
  intro cid cli name rem now hf hn
  constructor
  · have hnew := loginSuccess_newcomer st cid cli name rem now h1 hf
    cases hr : findClient (loginSuccess st cid name rem now) cid with
    | none =>
      rw [hr] at hnew
      simp at hnew
    | some x =>
      rw [hr] at hnew
      simp at hnew
      simp [hnew.1]
  · intro d hd hdne hdauth hdname
    have hcl := loginSuccess_clients st cid name rem now h1
    unfold findClient
    rw [hcl, updateClient_clients]
    apply List.find?_eq_none.mpr
    intro x hx
    have hx2 := List.mem_filter.mp hx
    obtain ⟨a, hma, rfl⟩ := List.mem_map.mp hx2.1
    have hpx : (!(kickCond cid name (if a.cid == cid then loginUpd name now a else a))) = true :=
      hx2.2
    by_cases hax : a.cid = cid
    · have he : (if a.cid == cid then loginUpd name now a else a) = loginUpd name now a := by
        simp [hax]
      rw [he]
      intro hc
      have hacd : a.cid = d.cid := by simpa using hc
      exact hdne (hacd ▸ hax)
    · have he : (if a.cid == cid then loginUpd name now a else a) = a := by simp [hax]
      rw [he] at hpx ⊢
      intro hbeq
      have hacd : a.cid = d.cid := by simpa using hbeq
      have had : a = d := List.inj_on_of_nodup_map h1 hma hd hacd
      subst had
      have hk : kickCond cid name a = true := by
        simp [kickCond, hax, hdauth, hdname, hn]
      rw [hk] at hpx
      simp at hpx

/-- C2 witness: in a concretely reached state holding an authorized Alice and a
fresh connection, a second login as Alice authorizes the newcomer and evicts
the prior holder. -/
theorem C2_witness :
    ((findClient (loginSuccess (acceptConn (rx_line (acceptConn (initState none 250) 0 1)
        0 "LOGIN=Alice;" 2) 1 3) 1 "Alice" "" 9) 1).map (fun c => c.authorized) = some true)
    ∧ findClient (loginSuccess (acceptConn (rx_line (acceptConn (initState none 250) 0 1)
        0 "LOGIN=Alice;" 2) 1 3) 1 "Alice" "" 9) 0 = none := by
  have hr : Reachable 0 none 250 (acceptConn (rx_line (acceptConn (initState none 250) 0 1)
      0 "LOGIN=Alice;" 2) 1 3) :=
    Reachable.step (Reachable.step (Reachable.step Reachable.init
      (Step.accept (initState none 250) 0 1 (by decide)))
      (Step.rx (acceptConn (initState none 250) 0 1) 0 "LOGIN=Alice;" 2))
      (Step.accept (rx_line (acceptConn (initState none 250) 0 1) 0 "LOGIN=Alice;" 2) 1 3
        (by decide))
  have h := (C2_name_uniqueness 0 none 250 (acceptConn (rx_line (acceptConn (initState none 250)
      0 1) 0 "LOGIN=Alice;" 2) 1 3) hr).2 1 (Client.mk 1 "" false 3 3 none false "")
    "Alice" "" 9 (by decide) (by decide)
  exact ⟨h.1, h.2 (Client.mk 0 "Alice" true 2 2 none false "") (by decide) (by decide)
    (by decide) (by decide)⟩

end Eqbcs
